import Mathlib

/-!
Verification development for the MacFry SensoryVision CV engine
(`colorAnalysis` V2 module).  JavaScript numbers are modelled exactly:
values produced by purely rational arithmetic (pixel statistics, grid
segmentation, the crunch estimator, white balance) live in `ℚ`, values
produced by transcendental operations (`Math.pow` with fractional
exponents, `Math.sqrt`, trigonometry in `deltaE2000`) live in `ℝ`.
`Math.round` is round-half-up, which is Mathlib's `round`; `Math.trunc`
style remainder (`%`) is modelled by `jsMod` below.  Typed-array pixel
buffers are modelled as `List ℚ` in RGBA order, with out-of-range reads
defaulting to 0 (all reads performed by the engine are in bounds for a
well-formed buffer).
-/

/-- Truncation toward zero, as JavaScript `Math.trunc` / the implicit
truncation in the `%` operator. -/
def ratTrunc (q : ℚ) : ℤ :=
  if 0 ≤ q then ⌊q⌋ else -⌊-q⌋

/-- JavaScript remainder operator `a % b` on numbers: the sign follows the
dividend, `a % b = a - b * trunc (a / b)`. -/
def jsMod (a b : ℚ) : ℚ :=
  a - b * (ratTrunc (a / b) : ℚ)

/-- `List.range` shifted to start at `lo` and stop before `hi`: the index
list traversed by a `for (let i = lo; i < hi; i++)` loop. -/
def rangeFromTo (lo hi : ℕ) : List ℕ :=
  (List.range (hi - lo)).map (· + lo)

/-- HSV colour triple (`HSVColor` in the source). -/
structure HSVColor where
  h : ℚ
  s : ℚ
  v : ℚ
  deriving DecidableEq

/-- `rgbToHsv(r, g, b)` from the source: channels are scaled to `[0,1]`,
hue is computed sector-wise, rounded to integer degrees and wrapped by
+360 when negative.  The local `max`/`min`/`delta` of the source are named
`mx`/`mn`/`dlt` to avoid shadowing the Lean builtins. -/
def rgbToHsv (r g b : ℚ) : HSVColor :=
  let r := r / 255
  let g := g / 255
  let b := b / 255
  let mx := max r (max g b)
  let mn := min r (min g b)
  let dlt := mx - mn
  let v := mx
  if dlt > 0 then
    let s := dlt / mx
    let hRaw : ℚ :=
      if mx = r then jsMod ((g - b) / dlt) 6
      else if mx = g then (b - r) / dlt + 2
      else (r - g) / dlt + 4
    let h0 : ℤ := round (hRaw * 60)
    let h1 : ℤ := if h0 < 0 then h0 + 360 else h0
    ⟨(h1 : ℚ), s, v⟩
  else
    ⟨0, 0, v⟩

theorem ratTrunc_eq_zero {q : ℚ} (h1 : -1 < q) (h2 : q < 1) : ratTrunc q = 0 := by
  unfold ratTrunc
  split
  · next h =>
    rw [Int.floor_eq_zero_iff]
    exact ⟨h, h2⟩
  · next h =>
    push_neg at h
    have : ⌊-q⌋ = 0 := by
      rw [Int.floor_eq_zero_iff]
      exact ⟨by linarith, by linarith⟩
    omega

theorem jsMod_small {a : ℚ} (h1 : -1 ≤ a) (h2 : a ≤ 1) : jsMod a 6 = a := by
  unfold jsMod
  rw [ratTrunc_eq_zero (by linarith) (by linarith)]
  push_cast
  ring

theorem round_le_round {a b : ℚ} (h : a ≤ b) : round a ≤ round b := by
  rw [round_eq, round_eq]
  exact Int.floor_le_floor (by linarith)

/-- The final hue wrap of `rgbToHsv`: an integer sector value in
`[-60, 300]` lands in `[0, 360)` after the negative wrap. -/
theorem hueWrap_bounds {h0 : ℤ} (hlo : -60 ≤ h0) (hhi : h0 ≤ 300) :
    0 ≤ (if h0 < 0 then h0 + 360 else h0) ∧ (if h0 < 0 then h0 + 360 else h0) < 360 := by
  split <;> omega

/-- Rounded sector values stay within `[-60, 300]` when the raw sector is
in `[-1, 5]`. -/
theorem sector_round_bounds {x : ℚ} (h1 : -1 ≤ x) (h5 : x ≤ 5) :
    -60 ≤ round (x * 60) ∧ round (x * 60) ≤ 300 := by
  have e1 : round ((-60 : ℚ)) = -60 := by norm_num [round_eq]
  have e2 : round ((300 : ℚ)) = 300 := by norm_num [round_eq]
  constructor
  · have := round_le_round (show (-60 : ℚ) ≤ x * 60 by linarith)
    omega
  · have := round_le_round (show x * 60 ≤ (300 : ℚ) by linarith)
    omega

/-- Claim C7: for channels in `[0,255]`, `rgbToHsv` yields an integer hue
in `[0,360)` (negative sectors wrapped by +360), saturation and value in
`[0,1]`, and for achromatic inputs (`r = g = b`) hue 0 and saturation 0. -/
theorem rgbToHsv_ranges (r g b : ℚ)
    (hr : 0 ≤ r ∧ r ≤ 255) (hg : 0 ≤ g ∧ g ≤ 255) (hb : 0 ≤ b ∧ b ≤ 255) :
    (∃ n : ℤ, (rgbToHsv r g b).h = (n : ℚ)) ∧
    0 ≤ (rgbToHsv r g b).h ∧ (rgbToHsv r g b).h < 360 ∧
    0 ≤ (rgbToHsv r g b).s ∧ (rgbToHsv r g b).s ≤ 1 ∧
    0 ≤ (rgbToHsv r g b).v ∧ (rgbToHsv r g b).v ≤ 1 ∧
    (r = g → g = b → (rgbToHsv r g b).h = 0 ∧ (rgbToHsv r g b).s = 0) := by
  obtain ⟨hr0, hr1⟩ := hr
  obtain ⟨hg0, hg1⟩ := hg
  obtain ⟨hb0, hb1⟩ := hb
  have hR0 : (0 : ℚ) ≤ r / 255 := by positivity
  have hG0 : (0 : ℚ) ≤ g / 255 := by positivity
  have hB0 : (0 : ℚ) ≤ b / 255 := by positivity
  have hR1 : r / 255 ≤ 1 := by linarith
  have hG1 : g / 255 ≤ 1 := by linarith
  have hB1 : b / 255 ≤ 1 := by linarith
  simp only [rgbToHsv]
  set R := r / 255 with hRdef
  set G := g / 255 with hGdef
  set B := b / 255 with hBdef
  set mx := max R (max G B) with hmxdef
  set mn := min R (min G B) with hmndef
  have hmx1 : mx ≤ 1 := max_le hR1 (max_le hG1 hB1)
  have hmn0 : 0 ≤ mn := le_min hR0 (le_min hG0 hB0)
  have hRmx : R ≤ mx := le_max_left _ _
  have hGmx : G ≤ mx := le_trans (le_max_left G B) (le_max_right R _)
  have hBmx : B ≤ mx := le_trans (le_max_right G B) (le_max_right R _)
  have hmnR : mn ≤ R := min_le_left _ _
  have hmnG : mn ≤ G := le_trans (min_le_right R _) (min_le_left G B)
  have hmnB : mn ≤ B := le_trans (min_le_right R _) (min_le_right G B)
  have hmx0 : 0 ≤ mx := le_trans hR0 hRmx
  by_cases hd : mx - mn > 0
  · -- chromatic branch
    rw [if_pos hd]
    have hmxpos : 0 < mx := by linarith
    have hsect : -1 ≤ (if mx = R then jsMod ((G - B) / (mx - mn)) 6
        else if mx = G then (B - R) / (mx - mn) + 2
        else (R - G) / (mx - mn) + 4) ∧
        (if mx = R then jsMod ((G - B) / (mx - mn)) 6
        else if mx = G then (B - R) / (mx - mn) + 2
        else (R - G) / (mx - mn) + 4) ≤ 5 := by
      have hdiv : ∀ x y : ℚ, mn ≤ x → x ≤ mx → mn ≤ y → y ≤ mx →
          -1 ≤ (x - y) / (mx - mn) ∧ (x - y) / (mx - mn) ≤ 1 := by
        intro x y hx1 hx2 hy1 hy2
        constructor
        · rw [le_div_iff₀ hd]
          linarith
        · rw [div_le_one hd]
          linarith
      split
      · next =>
        obtain ⟨l1, l2⟩ := hdiv G B hmnG hGmx hmnB hBmx
        rw [jsMod_small l1 l2]
        exact ⟨l1, by linarith⟩
      · split
        · next =>
          obtain ⟨l1, l2⟩ := hdiv B R hmnB hBmx hmnR hRmx
          exact ⟨by linarith, by linarith⟩
        · next =>
          obtain ⟨l1, l2⟩ := hdiv R G hmnR hRmx hmnG hGmx
          exact ⟨by linarith, by linarith⟩
    obtain ⟨hround1, hround2⟩ := sector_round_bounds hsect.1 hsect.2
    obtain ⟨hw1, hw2⟩ := hueWrap_bounds hround1 hround2
    dsimp only
    refine ⟨⟨_, rfl⟩, ?_, ?_, ?_, ?_, ?_, ?_, ?_⟩
    · exact_mod_cast hw1
    · exact_mod_cast hw2
    · positivity
    · exact div_le_one_of_le₀ (by linarith) hmx0
    · exact hmx0
    · exact hmx1
    · intro hrg hgb
      exfalso
      have : R = G := by rw [hRdef, hGdef, hrg]
      have : G = B := by rw [hGdef, hBdef, hgb]
      have hRG : R = G := by rw [hRdef, hGdef, hrg]
      have hGB : G = B := by rw [hGdef, hBdef, hgb]
      have hmxR : mx = R := by
        rw [hmxdef, hRG, hGB]
        simp
      have hmnR' : mn = R := by
        rw [hmndef, hRG, hGB]
        simp
      rw [hmxR, hmnR'] at hd
      simp at hd
  · -- achromatic / degenerate branch
    rw [if_neg hd]
    refine ⟨⟨0, by norm_num⟩, by norm_num, by norm_num, le_refl _, by norm_num, hmx0, hmx1, ?_⟩
    intro _ _
    exact ⟨rfl, rfl⟩

/-- Witness for C7 at the concrete triple (10, 20, 30). -/
theorem rgbToHsv_ranges_witness :
    ((0 : ℚ) ≤ 10 ∧ (10 : ℚ) ≤ 255) ∧
    ((∃ n : ℤ, (rgbToHsv 10 20 30).h = (n : ℚ)) ∧
      0 ≤ (rgbToHsv 10 20 30).h ∧ (rgbToHsv 10 20 30).h < 360 ∧
      0 ≤ (rgbToHsv 10 20 30).s ∧ (rgbToHsv 10 20 30).s ≤ 1 ∧
      0 ≤ (rgbToHsv 10 20 30).v ∧ (rgbToHsv 10 20 30).v ≤ 1 ∧
      ((10 : ℚ) = 20 → (20 : ℚ) = 30 → (rgbToHsv 10 20 30).h = 0 ∧ (rgbToHsv 10 20 30).s = 0)) :=
  ⟨by norm_num,
    rgbToHsv_ranges 10 20 30 (by norm_num) (by norm_num) (by norm_num)⟩

/-- CIE Lab colour triple (`LabColor` in the source). -/
structure LabColor where
  L : ℝ
  a : ℝ
  b : ℝ

open Classical in
/-- `rgbToLab(r, g, b)` from the source: sRGB companding, linear RGB to
XYZ, then the CIE nonlinearity (`Math.cbrt` is modelled as `rpow (1/3)`,
exact on the positive branch where the source uses it). -/
noncomputable def rgbToLab (r g b : ℝ) : LabColor :=
  let rr := r / 255
  let gg := g / 255
  let bb := b / 255
  let rr := if rr > 0.04045 then ((rr + 0.055) / 1.055) ^ (2.4 : ℝ) else rr / 12.92
  let gg := if gg > 0.04045 then ((gg + 0.055) / 1.055) ^ (2.4 : ℝ) else gg / 12.92
  let bb := if bb > 0.04045 then ((bb + 0.055) / 1.055) ^ (2.4 : ℝ) else bb / 12.92
  let X := rr * 0.4124 + gg * 0.3576 + bb * 0.1805
  let Y := rr * 0.2126 + gg * 0.7152 + bb * 0.0722
  let Z := rr * 0.0193 + gg * 0.1192 + bb * 0.9505
  let f := fun t : ℝ => if t > 0.008856 then t ^ ((1 : ℝ) / 3) else 7.787 * t + 16 / 116
  ⟨116 * f Y - 16, 500 * (f (X / 0.9505) - f Y), 200 * (f Y - f (Z / 1.089))⟩

/-- Reference target colour `MC_GOLD_LAB`. -/
noncomputable def MC_GOLD_LAB : LabColor := ⟨72.0, 8.5, 42.0⟩

/-- Degree-to-radian helper `rad` from `deltaE2000`. -/
noncomputable def rad (d : ℝ) : ℝ := d * Real.pi / 180

open Classical in
/-- JavaScript `Math.atan2`, needed by `deltaE2000`; standard quadrant
correction of `arctan`. -/
noncomputable def atan2 (y x : ℝ) : ℝ :=
  if 0 < x then Real.arctan (y / x)
  else if x < 0 ∧ 0 ≤ y then Real.arctan (y / x) + Real.pi
  else if x < 0 ∧ y < 0 then Real.arctan (y / x) - Real.pi
  else if x = 0 ∧ 0 < y then Real.pi / 2
  else if x = 0 ∧ y < 0 then -(Real.pi / 2)
  else 0

open Classical in
/-- The sequential ±360 wrap applied to `dhp` in `deltaE2000`
(`if (dhp > 180) dhp -= 360; if (dhp < -180) dhp += 360;`). -/
noncomputable def wrap180 (d : ℝ) : ℝ :=
  let d1 := if d > 180 then d - 360 else d
  if d1 < -180 then d1 + 360 else d1

/-- Chroma `C = sqrt(a² + b²)` of a Lab colour (lines computing C1/C2). -/
noncomputable def chroma (lab : LabColor) : ℝ :=
  Real.sqrt (lab.a * lab.a + lab.b * lab.b)

/-- The chroma-dependent `G` factor of `deltaE2000` (depends on both
input colours through the average chroma). -/
noncomputable def gFactor (lab1 lab2 : LabColor) : ℝ :=
  let Cbar := (chroma lab1 + chroma lab2) / 2
  let C7 := Cbar ^ (7 : ℕ)
  0.5 * (1 - Real.sqrt (C7 / (C7 + (25 : ℝ) ^ (7 : ℕ))))

/-- `a'` for one colour of a `deltaE2000` pair. -/
noncomputable def aPrime (lab lab1 lab2 : LabColor) : ℝ :=
  lab.a * (1 + gFactor lab1 lab2)

/-- `C'` for one colour of a `deltaE2000` pair. -/
noncomputable def cPrime (lab lab1 lab2 : LabColor) : ℝ :=
  Real.sqrt (aPrime lab lab1 lab2 * aPrime lab lab1 lab2 + lab.b * lab.b)

open Classical in
/-- `h'` (hue angle in degrees, wrapped to `[0,360)`) for one colour of a
`deltaE2000` pair. -/
noncomputable def hPrime (lab lab1 lab2 : LabColor) : ℝ :=
  let h := atan2 lab.b (aPrime lab lab1 lab2) * (180 / Real.pi)
  if h < 0 then h + 360 else h

open Classical in
/-- `dhp` of `deltaE2000`. -/
noncomputable def dhpVal (lab1 lab2 : LabColor) : ℝ :=
  if cPrime lab1 lab1 lab2 * cPrime lab2 lab1 lab2 ≠ 0 then
    wrap180 (hPrime lab2 lab1 lab2 - hPrime lab1 lab1 lab2)
  else 0

/-- `dHp` of `deltaE2000`. -/
noncomputable def dHpVal (lab1 lab2 : LabColor) : ℝ :=
  2 * Real.sqrt (cPrime lab1 lab1 lab2 * cPrime lab2 lab1 lab2) *
    Real.sin (rad (dhpVal lab1 lab2 / 2))

open Classical in
/-- `hbarp` of `deltaE2000`. -/
noncomputable def hbarpVal (lab1 lab2 : LabColor) : ℝ :=
  let h1p := hPrime lab1 lab1 lab2
  let h2p := hPrime lab2 lab1 lab2
  if cPrime lab1 lab1 lab2 * cPrime lab2 lab1 lab2 ≠ 0 then
    (if |h1p - h2p| > 180 then (h1p + h2p + 360) / 2 else (h1p + h2p) / 2)
  else h1p + h2p

/-- The `T` weighting term of `deltaE2000`. -/
noncomputable def tVal (lab1 lab2 : LabColor) : ℝ :=
  let hbarp := hbarpVal lab1 lab2
  1 - 0.17 * Real.cos (rad (hbarp - 30)) + 0.24 * Real.cos (rad (2 * hbarp)) +
    0.32 * Real.cos (rad (3 * hbarp + 6)) - 0.20 * Real.cos (rad (4 * hbarp - 63))

/-- `SL` of `deltaE2000`. -/
noncomputable def slVal (lab1 lab2 : LabColor) : ℝ :=
  let Lbarp := (lab1.L + lab2.L) / 2
  1 + 0.015 * (Lbarp - 50) ^ 2 / Real.sqrt (20 + (Lbarp - 50) ^ 2)

/-- `Cbarp` of `deltaE2000`. -/
noncomputable def cbarpVal (lab1 lab2 : LabColor) : ℝ :=
  (cPrime lab1 lab1 lab2 + cPrime lab2 lab1 lab2) / 2

/-- `SC` of `deltaE2000`. -/
noncomputable def scVal (lab1 lab2 : LabColor) : ℝ :=
  1 + 0.045 * cbarpVal lab1 lab2

/-- `SH` of `deltaE2000`. -/
noncomputable def shVal (lab1 lab2 : LabColor) : ℝ :=
  1 + 0.015 * cbarpVal lab1 lab2 * tVal lab1 lab2

/-- `RT` of `deltaE2000` (rotation term). -/
noncomputable def rtVal (lab1 lab2 : LabColor) : ℝ :=
  let Cbarp7 := cbarpVal lab1 lab2 ^ (7 : ℕ)
  let RC := 2 * Real.sqrt (Cbarp7 / (Cbarp7 + (25 : ℝ) ^ (7 : ℕ)))
  let dTheta := 30 * Real.exp (-(((hbarpVal lab1 lab2 - 275) / 25) ^ 2));
  -Real.sin (rad (2 * dTheta)) * RC

/-- `deltaE2000(lab1, lab2)` from the source, assembled from the
per-component definitions above. -/
noncomputable def deltaE2000 (lab1 lab2 : LabColor) : ℝ :=
  let dLp := lab2.L - lab1.L
  let dCp := cPrime lab2 lab1 lab2 - cPrime lab1 lab1 lab2
  let dHp := dHpVal lab1 lab2
  Real.sqrt ((dLp / slVal lab1 lab2) ^ 2 + (dCp / scVal lab1 lab2) ^ 2 +
    (dHp / shVal lab1 lab2) ^ 2 +
    rtVal lab1 lab2 * (dCp / scVal lab1 lab2) * (dHp / shVal lab1 lab2))

theorem wrap180_zero : wrap180 0 = 0 := by
  unfold wrap180
  norm_num

theorem wrap180_neg (x : ℝ) : wrap180 (-x) = -wrap180 x := by
  simp only [wrap180]
  split_ifs <;> linarith

theorem rad_zero : rad 0 = 0 := by
  unfold rad
  ring

theorem rad_neg (x : ℝ) : rad (-x) = -rad x := by
  unfold rad
  ring

theorem gFactor_comm (l1 l2 : LabColor) : gFactor l2 l1 = gFactor l1 l2 := by
  unfold gFactor
  rw [add_comm]

theorem aPrime_comm (l l1 l2 : LabColor) : aPrime l l2 l1 = aPrime l l1 l2 := by
  unfold aPrime
  rw [gFactor_comm]

theorem cPrime_comm (l l1 l2 : LabColor) : cPrime l l2 l1 = cPrime l l1 l2 := by
  unfold cPrime
  rw [aPrime_comm]

theorem hPrime_comm (l l1 l2 : LabColor) : hPrime l l2 l1 = hPrime l l1 l2 := by
  unfold hPrime
  rw [aPrime_comm]

theorem dhpVal_comm (l1 l2 : LabColor) : dhpVal l2 l1 = -dhpVal l1 l2 := by
  unfold dhpVal
  rw [cPrime_comm l1 l1 l2, cPrime_comm l2 l1 l2, hPrime_comm l1 l1 l2, hPrime_comm l2 l1 l2,
    mul_comm (cPrime l2 l1 l2),
    show hPrime l1 l1 l2 - hPrime l2 l1 l2 = -(hPrime l2 l1 l2 - hPrime l1 l1 l2) by ring,
    wrap180_neg]
  split <;> simp

theorem dHpVal_comm (l1 l2 : LabColor) : dHpVal l2 l1 = -dHpVal l1 l2 := by
  unfold dHpVal
  rw [cPrime_comm l1 l1 l2, cPrime_comm l2 l1 l2, dhpVal_comm, mul_comm (cPrime l2 l1 l2),
    show -dhpVal l1 l2 / 2 = -(dhpVal l1 l2 / 2) by ring, rad_neg, Real.sin_neg]
  ring

theorem hbarpVal_comm (l1 l2 : LabColor) : hbarpVal l2 l1 = hbarpVal l1 l2 := by
  simp only [hbarpVal]
  rw [cPrime_comm l1 l1 l2, cPrime_comm l2 l1 l2, hPrime_comm l1 l1 l2, hPrime_comm l2 l1 l2,
    mul_comm (cPrime l2 l1 l2) (cPrime l1 l1 l2),
    abs_sub_comm (hPrime l2 l1 l2) (hPrime l1 l1 l2)]
  split_ifs <;> ring

theorem tVal_comm (l1 l2 : LabColor) : tVal l2 l1 = tVal l1 l2 := by
  unfold tVal
  rw [hbarpVal_comm]

theorem slVal_comm (l1 l2 : LabColor) : slVal l2 l1 = slVal l1 l2 := by
  unfold slVal
  rw [add_comm l2.L]

theorem cbarpVal_comm (l1 l2 : LabColor) : cbarpVal l2 l1 = cbarpVal l1 l2 := by
  unfold cbarpVal
  rw [cPrime_comm l1 l1 l2, cPrime_comm l2 l1 l2, add_comm]

theorem scVal_comm (l1 l2 : LabColor) : scVal l2 l1 = scVal l1 l2 := by
  unfold scVal
  rw [cbarpVal_comm]

theorem shVal_comm (l1 l2 : LabColor) : shVal l2 l1 = shVal l1 l2 := by
  unfold shVal
  rw [cbarpVal_comm, tVal_comm]

theorem rtVal_comm (l1 l2 : LabColor) : rtVal l2 l1 = rtVal l1 l2 := by
  unfold rtVal
  rw [cbarpVal_comm, hbarpVal_comm]

theorem dhpVal_self (x : LabColor) : dhpVal x x = 0 := by
  unfold dhpVal
  rw [sub_self, wrap180_zero, ite_self]

theorem dHpVal_self (x : LabColor) : dHpVal x x = 0 := by
  unfold dHpVal
  rw [dhpVal_self]
  norm_num [rad_zero]

/-- Claim C8: `deltaE2000` is zero on identical colours and symmetric in
its two arguments. -/
theorem deltaE2000_identity_and_symmetry :
    (∀ x : LabColor, deltaE2000 x x = 0) ∧
    (∀ a b : LabColor, deltaE2000 a b = deltaE2000 b a) := by
  constructor
  · intro x
    unfold deltaE2000
    rw [sub_self, sub_self, dHpVal_self]
    simp
  · intro a b
    unfold deltaE2000
    rw [slVal_comm a b, scVal_comm a b, shVal_comm a b, rtVal_comm a b, dHpVal_comm a b,
      cPrime_comm a a b, cPrime_comm b a b,
      show a.L - b.L = -(b.L - a.L) by ring,
      show cPrime a a b - cPrime b a b = -(cPrime b a b - cPrime a a b) by ring]
    ring_nf

/-- Fuzzy membership degrees of one attribute score (`fuzzyMembership`). -/
structure FuzzyMembership where
  ideal : ℝ
  acceptable : ℝ
  warning : ℝ
  failure : ℝ

/-- `fuzzyMembership(score)` from the source: piecewise-linear memberships
of the distance from the target score 5. -/
noncomputable def fuzzyMembership (score : ℝ) : FuzzyMembership :=
  let dist := |score - 5|
  ⟨max 0 (1 - dist / 1.5),
    max 0 (1 - |dist - 1| / 1.5),
    max 0 (1 - |dist - 2| / 1.5),
    max 0 ((dist - 2) / 2)⟩

/-- The per-score defuzzified contribution computed inside the loop of
`fuzzyPQI` (`m.ideal*100 + m.acceptable*85 + m.warning*60 + m.failure*25`). -/
noncomputable def fuzzyContribution (score : ℝ) : ℝ :=
  (fuzzyMembership score).ideal * 100 + (fuzzyMembership score).acceptable * 85 +
    (fuzzyMembership score).warning * 60 + (fuzzyMembership score).failure * 25

open Classical in
/-- `fuzzyPQI(scores)` from the source.  Hard override rules first, then
weighted fuzzy contributions, two interaction penalties, a bonus for exact
fives, and a rounded clamp to `[0,100]`.  The pipeline always supplies
exactly four scores; list accesses use default 0 out of range. -/
noncomputable def fuzzyPQI (scores : List ℝ) : ℤ :=
  if ∃ s ∈ scores, s = 1 ∨ s = 9 then 0
  else if ∃ s ∈ scores, s = 2 ∨ s = 8 then 25
  else
    let colorS := scores.getD 0 0
    let hueS := scores.getD 1 0
    let mottleS := scores.getD 2 0
    let defectS := scores.getD 3 0
    let weights : List ℝ := [0.30, 0.25, 0.25, 0.20]
    let totalFuzzy := ((scores.zip weights).map (fun p => fuzzyContribution p.1 * p.2)).sum
    let hueDev := |hueS - 5|
    let motDev := |mottleS - 5|
    let interactionPenalty :=
      if hueDev > 1 ∧ motDev > 1 then (hueDev * motDev) ^ (0.7 : ℝ) * 3 else 0
    let colorDefectPenalty :=
      if |colorS - 5| > 1 ∧ |defectS - 5| > 1 then
        (|colorS - 5| * |defectS - 5|) ^ (0.5 : ℝ) * 2
      else 0
    let numFives := (scores.filter fun s => decide (s = 5)).length
    let bonus := if numFives > 0 then ((numFives : ℝ) / ((scores.length : ℝ) - 1)) * 10 else 0
    max 0 (min 100 (round (totalFuzzy - interactionPenalty - colorDefectPenalty + bonus)))

/-- `calculatePQI` is the exported legacy shim delegating to `fuzzyPQI`. -/
noncomputable def calculatePQI (scores : List ℝ) : ℤ :=
  fuzzyPQI scores

theorem round_le_roundR {a b : ℝ} (h : a ≤ b) : round a ≤ round b := by
  rw [round_eq, round_eq]
  exact Int.floor_le_floor (by linarith)

/-- Each attribute score in `3..7` contributes at least `265/3` to the
weighted fuzzy sum. -/
theorem fuzzyContribution_ge (s : ℤ) (h3 : 3 ≤ s) (h7 : s ≤ 7) :
    (265 : ℝ) / 3 ≤ fuzzyContribution (s : ℝ) := by
  interval_cases s <;>
    (push_cast; norm_num [fuzzyContribution, fuzzyMembership, max_def])

/-- A rounded, clamped composite of the else-branch shape of `fuzzyPQI`
cannot equal 25 when the weighted sum is at least `265/3` and the
penalties are bounded. -/
theorem clamp_round_ne_25 (T ip cdp bonus : ℝ)
    (hT : (265 : ℝ) / 3 ≤ T) (hip : ip ≤ 12)
    (hcdp : cdp ≤ 8) (hbonus : 0 ≤ bonus) :
    max 0 (min 100 (round (T - ip - cdp + bonus))) ≠ (25 : ℤ) := by
  have hv : (205 : ℝ) / 3 ≤ T - ip - cdp + bonus := by linarith
  have h68 : round ((205 : ℝ) / 3) = 68 := by norm_num [round_eq]
  have hr : (68 : ℤ) ≤ round (T - ip - cdp + bonus) := by
    have := round_le_roundR hv
    omega
  rw [max_def, min_def]
  split_ifs <;> omega

theorem castEq19 {n : ℤ} (h : (n : ℝ) = 1 ∨ (n : ℝ) = 9) : n = 1 ∨ n = 9 := by
  exact_mod_cast h

theorem castEq28 {n : ℤ} (h : (n : ℝ) = 2 ∨ (n : ℝ) = 8) : n = 2 ∨ n = 8 := by
  exact_mod_cast h

/-- Claim C1: for four attribute scores in `1..9`, `fuzzyPQI` returns 0
when any score is 1 or 9; returns exactly 25 when no score is 1/9 but
some score is 2 or 8; and never returns 25 when all scores lie in
`3..7`. -/
theorem fuzzyPQI_hard_rules (a b c d : ℤ)
    (ha : 1 ≤ a ∧ a ≤ 9) (hb : 1 ≤ b ∧ b ≤ 9)
    (hc : 1 ≤ c ∧ c ≤ 9) (hd : 1 ≤ d ∧ d ≤ 9) :
    ((a = 1 ∨ a = 9 ∨ b = 1 ∨ b = 9 ∨ c = 1 ∨ c = 9 ∨ d = 1 ∨ d = 9) →
      fuzzyPQI [(a : ℝ), (b : ℝ), (c : ℝ), (d : ℝ)] = 0) ∧
    (¬(a = 1 ∨ a = 9 ∨ b = 1 ∨ b = 9 ∨ c = 1 ∨ c = 9 ∨ d = 1 ∨ d = 9) →
      (a = 2 ∨ a = 8 ∨ b = 2 ∨ b = 8 ∨ c = 2 ∨ c = 8 ∨ d = 2 ∨ d = 8) →
      fuzzyPQI [(a : ℝ), (b : ℝ), (c : ℝ), (d : ℝ)] = 25) ∧
    ((3 ≤ a ∧ a ≤ 7) → (3 ≤ b ∧ b ≤ 7) → (3 ≤ c ∧ c ≤ 7) → (3 ≤ d ∧ d ≤ 7) →
      fuzzyPQI [(a : ℝ), (b : ℝ), (c : ℝ), (d : ℝ)] ≠ 25) := by
  have memo : ∀ s : ℝ, s ∈ [(a : ℝ), (b : ℝ), (c : ℝ), (d : ℝ)] ↔
      s = (a : ℝ) ∨ s = (b : ℝ) ∨ s = (c : ℝ) ∨ s = (d : ℝ) := by
    intro s
    simp
  refine ⟨?_, ?_, ?_⟩
  · intro h
    have hex : ∃ s ∈ [(a : ℝ), (b : ℝ), (c : ℝ), (d : ℝ)], s = 1 ∨ s = 9 := by
      rcases h with h | h | h | h | h | h | h | h
      · exact ⟨(a : ℝ), by simp, by rw [h]; norm_num⟩
      · exact ⟨(a : ℝ), by simp, by rw [h]; norm_num⟩
      · exact ⟨(b : ℝ), by simp, by rw [h]; norm_num⟩
      · exact ⟨(b : ℝ), by simp, by rw [h]; norm_num⟩
      · exact ⟨(c : ℝ), by simp, by rw [h]; norm_num⟩
      · exact ⟨(c : ℝ), by simp, by rw [h]; norm_num⟩
      · exact ⟨(d : ℝ), by simp, by rw [h]; norm_num⟩
      · exact ⟨(d : ℝ), by simp, by rw [h]; norm_num⟩
    simp only [fuzzyPQI]
    rw [if_pos hex]
  · intro hno hyes
    have hnex : ¬∃ s ∈ [(a : ℝ), (b : ℝ), (c : ℝ), (d : ℝ)], s = 1 ∨ s = 9 := by
      rintro ⟨s, hs, hv⟩
      rw [memo] at hs
      rcases hs with rfl | rfl | rfl | rfl <;> (have h' := castEq19 hv; omega)
    have hex : ∃ s ∈ [(a : ℝ), (b : ℝ), (c : ℝ), (d : ℝ)], s = 2 ∨ s = 8 := by
      rcases hyes with h | h | h | h | h | h | h | h
      · exact ⟨(a : ℝ), by simp, by rw [h]; norm_num⟩
      · exact ⟨(a : ℝ), by simp, by rw [h]; norm_num⟩
      · exact ⟨(b : ℝ), by simp, by rw [h]; norm_num⟩
      · exact ⟨(b : ℝ), by simp, by rw [h]; norm_num⟩
      · exact ⟨(c : ℝ), by simp, by rw [h]; norm_num⟩
      · exact ⟨(c : ℝ), by simp, by rw [h]; norm_num⟩
      · exact ⟨(d : ℝ), by simp, by rw [h]; norm_num⟩
      · exact ⟨(d : ℝ), by simp, by rw [h]; norm_num⟩
    simp only [fuzzyPQI]
    rw [if_neg hnex, if_pos hex]
  · rintro ⟨h3a, h7a⟩ ⟨h3b, h7b⟩ ⟨h3c, h7c⟩ ⟨h3d, h7d⟩
    have hnex1 : ¬∃ s ∈ [(a : ℝ), (b : ℝ), (c : ℝ), (d : ℝ)], s = 1 ∨ s = 9 := by
      rintro ⟨s, hs, hv⟩
      rw [memo] at hs
      rcases hs with rfl | rfl | rfl | rfl <;> (have h' := castEq19 hv; omega)
    have hnex2 : ¬∃ s ∈ [(a : ℝ), (b : ℝ), (c : ℝ), (d : ℝ)], s = 2 ∨ s = 8 := by
      rintro ⟨s, hs, hv⟩
      rw [memo] at hs
      rcases hs with rfl | rfl | rfl | rfl <;> (have h' := castEq28 hv; omega)
    simp only [fuzzyPQI]
    rw [if_neg hnex1, if_neg hnex2]
    simp only [List.getD_cons_zero, List.getD_cons_succ, List.zip_cons_cons,
      List.zip_nil_right, List.map_cons, List.map_nil, List.sum_cons, List.sum_nil,
      List.length_cons, List.length_nil]
    have ca1 : (3 : ℝ) ≤ (a : ℝ) := by exact_mod_cast h3a
    have ca2 : (a : ℝ) ≤ 7 := by exact_mod_cast h7a
    have cb1 : (3 : ℝ) ≤ (b : ℝ) := by exact_mod_cast h3b
    have cb2 : (b : ℝ) ≤ 7 := by exact_mod_cast h7b
    have cc1 : (3 : ℝ) ≤ (c : ℝ) := by exact_mod_cast h3c
    have cc2 : (c : ℝ) ≤ 7 := by exact_mod_cast h7c
    have cd1 : (3 : ℝ) ≤ (d : ℝ) := by exact_mod_cast h3d
    have cd2 : (d : ℝ) ≤ 7 := by exact_mod_cast h7d
    have da : |(a : ℝ) - 5| ≤ 2 := by rw [abs_le]; constructor <;> linarith
    have db : |(b : ℝ) - 5| ≤ 2 := by rw [abs_le]; constructor <;> linarith
    have dc : |(c : ℝ) - 5| ≤ 2 := by rw [abs_le]; constructor <;> linarith
    have dd : |(d : ℝ) - 5| ≤ 2 := by rw [abs_le]; constructor <;> linarith
    apply clamp_round_ne_25
    · have g1 := fuzzyContribution_ge a h3a h7a
      have g2 := fuzzyContribution_ge b h3b h7b
      have g3 := fuzzyContribution_ge c h3c h7c
      have g4 := fuzzyContribution_ge d h3d h7d
      linarith
    · split
      · have h1 : (|(b : ℝ) - 5| * |(c : ℝ) - 5|) ^ (0.7 : ℝ) ≤ (4 : ℝ) ^ (0.7 : ℝ) :=
          Real.rpow_le_rpow (by positivity)
            (by nlinarith [abs_nonneg ((b : ℝ) - 5), abs_nonneg ((c : ℝ) - 5)]) (by norm_num)
        have h2 : (4 : ℝ) ^ (0.7 : ℝ) ≤ (4 : ℝ) ^ (1 : ℝ) :=
          Real.rpow_le_rpow_of_exponent_le (by norm_num) (by norm_num)
        have h3 : (4 : ℝ) ^ (1 : ℝ) = 4 := Real.rpow_one 4
        linarith
      · norm_num
    · split
      · have h1 : (|(a : ℝ) - 5| * |(d : ℝ) - 5|) ^ (0.5 : ℝ) ≤ (4 : ℝ) ^ (0.5 : ℝ) :=
          Real.rpow_le_rpow (by positivity)
            (by nlinarith [abs_nonneg ((a : ℝ) - 5), abs_nonneg ((d : ℝ) - 5)]) (by norm_num)
        have h2 : (4 : ℝ) ^ (0.5 : ℝ) ≤ (4 : ℝ) ^ (1 : ℝ) :=
          Real.rpow_le_rpow_of_exponent_le (by norm_num) (by norm_num)
        have h3 : (4 : ℝ) ^ (1 : ℝ) = 4 := Real.rpow_one 4
        linarith
      · norm_num
    · split
      · positivity
      · exact le_refl 0

/-- Witness for C1 at concrete score vectors: (1,5,5,5) hits the zero
rule, (2,5,5,5) hits the 25 rule, and (5,5,5,5) lies in `3..7` so its
index is not 25. -/
theorem fuzzyPQI_hard_rules_witness :
    fuzzyPQI [((1 : ℤ) : ℝ), ((5 : ℤ) : ℝ), ((5 : ℤ) : ℝ), ((5 : ℤ) : ℝ)] = 0 ∧
    fuzzyPQI [((2 : ℤ) : ℝ), ((5 : ℤ) : ℝ), ((5 : ℤ) : ℝ), ((5 : ℤ) : ℝ)] = 25 ∧
    fuzzyPQI [((5 : ℤ) : ℝ), ((5 : ℤ) : ℝ), ((5 : ℤ) : ℝ), ((5 : ℤ) : ℝ)] ≠ 25 :=
  ⟨(fuzzyPQI_hard_rules 1 5 5 5 (by norm_num) (by norm_num) (by norm_num) (by norm_num)).1
      (by norm_num),
    (fuzzyPQI_hard_rules 2 5 5 5 (by norm_num) (by norm_num) (by norm_num) (by norm_num)).2.1
      (by norm_num) (by norm_num),
    (fuzzyPQI_hard_rules 5 5 5 5 (by norm_num) (by norm_num) (by norm_num) (by norm_num)).2.2
      (by norm_num) (by norm_num) (by norm_num) (by norm_num)⟩

/-- RGBA image buffer with geometry (`ImageData`): `data` holds 4 entries
per pixel, row-major. -/
structure ImageData where
  data : List ℚ
  width : ℕ
  height : ℕ
  deriving DecidableEq

/-- ITU-R BT.601 luminance used throughout the source
(`0.299*r + 0.587*g + 0.114*b`). -/
def lum601 (r g b : ℚ) : ℚ := 0.299 * r + 0.587 * g + 0.114 * b

/-- The near-neutral test of `estimateWhiteBalance`: maximum pairwise
channel deviation. -/
def wbMaxDiff (r g b : ℚ) : ℚ := max |r - g| (max |g - b| |r - b|)

/-- Pixel coordinates scanned for the 5x5 patch `(py, px)` of
`estimateWhiteBalance` (y outer, x inner, clipped to the image). -/
def wbPatchPixels (width height patchW patchH py px : ℕ) : List (ℕ × ℕ) :=
  (rangeFromTo (py * patchH) (min (py * patchH + patchH) height)).flatMap
    (fun y => (rangeFromTo (px * patchW) (min (px * patchW + patchW) width)).map
      (fun x => (y, x)))

/-- Per-patch channel means of `estimateWhiteBalance` (`none` when the
patch holds no pixels, mirroring `if (cnt === 0) continue`). -/
def wbPatchMeans (data : List ℚ) (width height py px : ℕ) : Option (ℚ × ℚ × ℚ) :=
  let patchW := Nat.max 1 (width / 5)
  let patchH := Nat.max 1 (height / 5)
  let pts := wbPatchPixels width height patchW patchH py px
  if pts.length = 0 then none
  else
    let sumR := (pts.map (fun p => data.getD ((p.1 * width + p.2) * 4) 0)).sum
    let sumG := (pts.map (fun p => data.getD ((p.1 * width + p.2) * 4 + 1) 0)).sum
    let sumB := (pts.map (fun p => data.getD ((p.1 * width + p.2) * 4 + 2) 0)).sum
    some (sumR / pts.length, sumG / pts.length, sumB / pts.length)

/-- One step of the best-neutral-patch scan of `estimateWhiteBalance`:
state is `(bestV, refR, refG, refB)`. -/
def wbStep (data : List ℚ) (width height : ℕ) (st : ℚ × ℚ × ℚ × ℚ) (p : ℕ × ℕ) :
    ℚ × ℚ × ℚ × ℚ :=
  match wbPatchMeans data width height p.1 p.2 with
  | none => st
  | some m =>
    if lum601 m.1 m.2.1 m.2.2 > st.1 ∧ wbMaxDiff m.1 m.2.1 m.2.2 < 40 then
      (lum601 m.1 m.2.1 m.2.2, m.1, m.2.1, m.2.2)
    else st

/-- Scan order of the 5x5 patch grid (`py` outer, `px` inner). -/
def wbPatchList : List (ℕ × ℕ) :=
  (List.range 5).flatMap (fun py => (List.range 5).map (fun px => (py, px)))

/-- `estimateWhiteBalance(data, width, height)` from the source. -/
def estimateWhiteBalance (data : List ℚ) (width height : ℕ) : ℚ × ℚ × ℚ :=
  let st := wbPatchList.foldl (wbStep data width height) (0, 255, 255, 255)
  if st.1 < 30 then (1, 1, 1)
  else
    let target := (st.2.1 + st.2.2.1 + st.2.2.2) / 3
    (target / max 1 st.2.1, target / max 1 st.2.2.1, target / max 1 st.2.2.2)

/-- A patch qualifies as a neutral-reference candidate: it has pixels and
its per-channel mean deviations are all below 40. -/
def wbQualifies (data : List ℚ) (width height : ℕ) (p : ℕ × ℕ) : Prop :=
  match wbPatchMeans data width height p.1 p.2 with
  | some m => wbMaxDiff m.1 m.2.1 m.2.2 < 40
  | none => False

instance wbQualifiesDec (data : List ℚ) (width height : ℕ) (p : ℕ × ℕ) :
    Decidable (wbQualifies data width height p) :=
  match h : wbPatchMeans data width height p.1 p.2 with
  | some m => decidable_of_iff (wbMaxDiff m.1 m.2.1 m.2.2 < 40)
      (by unfold wbQualifies; rw [h])
  | none => decidable_of_iff False (by unfold wbQualifies; rw [h])

/-- Luminance of a patch (0 for an empty patch). -/
def wbLum (data : List ℚ) (width height : ℕ) (p : ℕ × ℕ) : ℚ :=
  match wbPatchMeans data width height p.1 p.2 with
  | some m => lum601 m.1 m.2.1 m.2.2
  | none => 0

/-- The scan state produced by selecting patch `p`. -/
def wbSel (data : List ℚ) (width height : ℕ) (p : ℕ × ℕ) : ℚ × ℚ × ℚ × ℚ :=
  match wbPatchMeans data width height p.1 p.2 with
  | some m => (lum601 m.1 m.2.1 m.2.2, m.1, m.2.1, m.2.2)
  | none => (0, 0, 0, 0)

/-- Invariant of the best-neutral-patch fold: the final state is either
unchanged (and no scanned qualifying patch beats the initial best), or is
the state of a scanned qualifying patch of maximal luminance. -/
theorem wbFold_spec (data : List ℚ) (width height : ℕ) :
    ∀ (l : List (ℕ × ℕ)) (st0 : ℚ × ℚ × ℚ × ℚ),
      (l.foldl (wbStep data width height) st0 = st0 ∧
        ∀ p ∈ l, wbQualifies data width height p → wbLum data width height p ≤ st0.1) ∨
      (∃ p ∈ l, wbQualifies data width height p ∧
        l.foldl (wbStep data width height) st0 = wbSel data width height p ∧
        st0.1 < wbLum data width height p ∧
        ∀ q ∈ l, wbQualifies data width height q →
          wbLum data width height q ≤ wbLum data width height p) := by
  intro l
  induction l with
  | nil =>
    intro st0
    left
    exact ⟨rfl, by simp⟩
  | cons p rest ih =>
    intro st0
    rw [List.foldl_cons]
    rcases hm : wbPatchMeans data width height p.1 p.2 with _ | m
    · have hstep : wbStep data width height st0 p = st0 := by
        unfold wbStep
        rw [hm]
      rw [hstep]
      rcases ih st0 with ⟨heq, hall⟩ | ⟨p', hp', hqual', heq', hlt', hmax'⟩
      · left
        refine ⟨heq, ?_⟩
        intro q hq hqual
        rcases List.mem_cons.mp hq with rfl | hq
        · simp [wbQualifies, hm] at hqual
        · exact hall q hq hqual
      · right
        refine ⟨p', List.mem_cons_of_mem _ hp', hqual', heq', hlt', ?_⟩
        intro q hq hqual
        rcases List.mem_cons.mp hq with rfl | hq
        · simp [wbQualifies, hm] at hqual
        · exact hmax' q hq hqual
    · by_cases hcond : lum601 m.1 m.2.1 m.2.2 > st0.1 ∧ wbMaxDiff m.1 m.2.1 m.2.2 < 40
      · have hstep : wbStep data width height st0 p =
            (lum601 m.1 m.2.1 m.2.2, m.1, m.2.1, m.2.2) := by
          unfold wbStep
          rw [hm]
          dsimp only
          rw [if_pos hcond]
        have hql : wbQualifies data width height p := by
          unfold wbQualifies
          rw [hm]
          exact hcond.2
        have hlum : wbLum data width height p = lum601 m.1 m.2.1 m.2.2 := by
          unfold wbLum
          rw [hm]
        have hselp : wbSel data width height p =
            (lum601 m.1 m.2.1 m.2.2, m.1, m.2.1, m.2.2) := by
          unfold wbSel
          rw [hm]
        rw [hstep]
        rcases ih (lum601 m.1 m.2.1 m.2.2, m.1, m.2.1, m.2.2) with
          ⟨heq, hall⟩ | ⟨p', hp', hqual', heq', hlt', hmax'⟩
        · right
          refine ⟨p, List.mem_cons_self _ _, hql, by rw [heq, hselp], ?_, ?_⟩
          · rw [hlum]
            exact hcond.1
          · intro q hq hqual
            rcases List.mem_cons.mp hq with rfl | hq
            · exact le_refl _
            · have h := hall q hq hqual
              rw [hlum]
              simpa using h
        · right
          have hlt1 : (lum601 m.1 m.2.1 m.2.2 : ℚ) < wbLum data width height p' := by
            simpa using hlt'
          refine ⟨p', List.mem_cons_of_mem _ hp', hqual', heq', ?_, ?_⟩
          · linarith [hcond.1]
          · intro q hq hqual
            rcases List.mem_cons.mp hq with rfl | hq
            · rw [hlum]
              linarith
            · exact hmax' q hq hqual
      · have hstep : wbStep data width height st0 p = st0 := by
          unfold wbStep
          rw [hm]
          dsimp only
          rw [if_neg hcond]
        rw [hstep]
        have hlump : wbLum data width height p = lum601 m.1 m.2.1 m.2.2 := by
          unfold wbLum
          rw [hm]
        have hple : wbQualifies data width height p → wbLum data width height p ≤ st0.1 := by
          intro hqual
          have hmd : wbMaxDiff m.1 m.2.1 m.2.2 < 40 := by
            unfold wbQualifies at hqual
            rw [hm] at hqual
            exact hqual
          have hnotgt : ¬lum601 m.1 m.2.1 m.2.2 > st0.1 := fun hgt => hcond ⟨hgt, hmd⟩
          rw [hlump]
          exact not_lt.mp hnotgt
        rcases ih st0 with ⟨heq, hall⟩ | ⟨p', hp', hqual', heq', hlt', hmax'⟩
        · left
          refine ⟨heq, ?_⟩
          intro q hq hqual
          rcases List.mem_cons.mp hq with rfl | hq
          · exact hple hqual
          · exact hall q hq hqual
        · right
          refine ⟨p', List.mem_cons_of_mem _ hp', hqual', heq', hlt', ?_⟩
          intro q hq hqual
          rcases List.mem_cons.mp hq with rfl | hq
          · exact le_trans (hple hqual) (le_of_lt hlt')
          · exact hmax' q hq hqual

/-- Claim C5 (amended): if no qualifying patch reaches luminance 30 the
gains are `(1,1,1)`; otherwise the winner is a qualifying patch of
maximal luminance and each gain is `target / max 1 channelMean` (the
source clamps the denominator by `Math.max(1, ·)`, which the original
claim omits). -/
theorem estimateWhiteBalance_spec (data : List ℚ) (width height : ℕ) :
    ((∀ p ∈ wbPatchList, wbQualifies data width height p → wbLum data width height p < 30) →
      estimateWhiteBalance data width height = (1, 1, 1)) ∧
    ((∃ p ∈ wbPatchList, wbQualifies data width height p ∧ 30 ≤ wbLum data width height p) →
      ∃ p ∈ wbPatchList, wbQualifies data width height p ∧
        (∀ q ∈ wbPatchList, wbQualifies data width height q →
          wbLum data width height q ≤ wbLum data width height p) ∧
        ∃ m, wbPatchMeans data width height p.1 p.2 = some m ∧
          estimateWhiteBalance data width height =
            ((m.1 + m.2.1 + m.2.2) / 3 / max 1 m.1,
              (m.1 + m.2.1 + m.2.2) / 3 / max 1 m.2.1,
              (m.1 + m.2.1 + m.2.2) / 3 / max 1 m.2.2)) := by
  constructor
  · intro hall
    unfold estimateWhiteBalance
    rcases wbFold_spec data width height wbPatchList (0, 255, 255, 255) with
      ⟨heq, _⟩ | ⟨p, hp, hqual, heq, _, _⟩
    · rw [heq]
      norm_num
    · rw [heq]
      have h30 := hall p hp hqual
      have hsel1 : (wbSel data width height p).1 = wbLum data width height p := by
        unfold wbSel wbLum
        cases wbPatchMeans data width height p.1 p.2 <;> rfl
      rw [if_pos (by rw [hsel1]; exact h30)]
  · rintro ⟨p0, hp0, hq0, h30⟩
    rcases wbFold_spec data width height wbPatchList (0, 255, 255, 255) with
      ⟨heq, hall⟩ | ⟨p, hp, hqual, heq, hlt, hmax⟩
    · exfalso
      have hle := hall p0 hp0 hq0
      simp at hle
      linarith
    · refine ⟨p, hp, hqual, hmax, ?_⟩
      have hex : ∃ m, wbPatchMeans data width height p.1 p.2 = some m := by
        unfold wbQualifies at hqual
        rcases h : wbPatchMeans data width height p.1 p.2 with _ | m
        · rw [h] at hqual
          exact absurd hqual (by simp)
        · exact ⟨m, rfl⟩
      obtain ⟨m, hm⟩ := hex
      refine ⟨m, hm, ?_⟩
      unfold estimateWhiteBalance
      rw [heq]
      have hsel : wbSel data width height p = (lum601 m.1 m.2.1 m.2.2, m.1, m.2.1, m.2.2) := by
        unfold wbSel
        rw [hm]
      have hlum : wbLum data width height p = lum601 m.1 m.2.1 m.2.2 := by
        unfold wbLum
        rw [hm]
      have h30' : (30 : ℚ) ≤ lum601 m.1 m.2.1 m.2.2 := by
        rw [← hlum]
        exact le_trans h30 (hmax p0 hp0 hq0)
      rw [hsel, if_neg (by dsimp only; linarith)]

/-- The white-balance gains exactly as claim C5 words them: target
divided by the raw channel mean, with no `max 1` clamp. -/
def c5ClaimedGains (m : ℚ × ℚ × ℚ) : ℚ × ℚ × ℚ :=
  ((m.1 + m.2.1 + m.2.2) / 3 / m.1, (m.1 + m.2.1 + m.2.2) / 3 / m.2.1,
    (m.1 + m.2.1 + m.2.2) / 3 / m.2.2)

/-- Claim C5 as stated: unit gains when no qualifying patch reaches
luminance 30, else gains `target / channelMean` for the winning patch. -/
def c5ClaimStatement : Prop :=
  ∀ (data : List ℚ) (width height : ℕ),
    ((∀ p ∈ wbPatchList, wbQualifies data width height p → wbLum data width height p < 30) →
      estimateWhiteBalance data width height = (1, 1, 1)) ∧
    (∀ p ∈ wbPatchList, wbQualifies data width height p → 30 ≤ wbLum data width height p →
      (∀ q ∈ wbPatchList, wbQualifies data width height q →
        wbLum data width height q ≤ wbLum data width height p) →
      ∀ m, wbPatchMeans data width height p.1 p.2 = some m →
        estimateWhiteBalance data width height = c5ClaimedGains m)

/-- A 10x1 image whose first 5x5-grid patch holds the two pixels
(40,40,0) and (40,40,1): the patch is near-neutral with luminance about
35.5, but its blue mean 1/2 falls under the `max 1` clamp. -/
def wbCounterData : List ℚ :=
  [40, 40, 0, 255, 40, 40, 1, 255,
    0, 0, 0, 255, 0, 0, 0, 255, 0, 0, 0, 255, 0, 0, 0, 255,
    0, 0, 0, 255, 0, 0, 0, 255, 0, 0, 0, 255, 0, 0, 0, 255]

set_option maxRecDepth 10000 in
unseal Rat.add Rat.mul Rat.inv Rat.sub Rat.ofScientific in
/-- Counterexample to claim C5 as stated: on `wbCounterData` the winning
patch has channel means (40, 40, 1/2); the source divides the blue gain
by `max 1 (1/2) = 1`, not by the raw mean 1/2, so the returned blue gain
is 161/6 while the claim predicts 161/3. -/
theorem estimateWhiteBalance_claim_false : ¬c5ClaimStatement := by
  intro h
  have hm : wbPatchMeans wbCounterData 10 1 0 0 = some (40, 40, 1/2) := by decide
  have h2 := (h wbCounterData 10 1).2 (0, 0) (by decide) (by decide) (by decide)
    (by decide) (40, 40, 1/2) hm
  have hcomp : estimateWhiteBalance wbCounterData 10 1 = (161/240, 161/240, 161/6) := by
    decide
  rw [hcomp] at h2
  have h3 := congrArg (fun t : ℚ × ℚ × ℚ => t.2.2) h2
  simp only [c5ClaimedGains] at h3
  norm_num at h3

set_option maxRecDepth 10000 in
unseal Rat.add Rat.mul Rat.inv Rat.sub Rat.ofScientific in
/-- Witness for the amended C5 at `wbCounterData`: the qualifying patch
(0,0) reaches luminance 30, so the non-trivial branch of the spec
applies. -/
theorem estimateWhiteBalance_spec_witness :
    (∃ p ∈ wbPatchList, wbQualifies wbCounterData 10 1 p ∧
      30 ≤ wbLum wbCounterData 10 1 p) ∧
    (∃ p ∈ wbPatchList, wbQualifies wbCounterData 10 1 p ∧
      (∀ q ∈ wbPatchList, wbQualifies wbCounterData 10 1 q →
        wbLum wbCounterData 10 1 q ≤ wbLum wbCounterData 10 1 p) ∧
      ∃ m, wbPatchMeans wbCounterData 10 1 p.1 p.2 = some m ∧
        estimateWhiteBalance wbCounterData 10 1 =
          ((m.1 + m.2.1 + m.2.2) / 3 / max 1 m.1,
            (m.1 + m.2.1 + m.2.2) / 3 / max 1 m.2.1,
            (m.1 + m.2.1 + m.2.2) / 3 / max 1 m.2.2)) :=
  ⟨⟨(0, 0), by decide, by decide, by decide⟩,
    (estimateWhiteBalance_spec wbCounterData 10 1).2
      ⟨(0, 0), by decide, by decide, by decide⟩⟩

/-- Luminance of the pixel at `(x, y)` in a raw RGBA buffer (the
`0.299*r + 0.587*g + 0.114*b` read inside `computeCrunchScore`). -/
def lumAt (data : List ℚ) (width x y : ℕ) : ℚ :=
  lum601 (data.getD ((y * width + x) * 4) 0) (data.getD ((y * width + x) * 4 + 1) 0)
    (data.getD ((y * width + x) * 4 + 2) 0)

/-- Row `row` of the 8x8 luminance patch `(px, py)` (`patch.slice(row*8,
(row+1)*8)` over the row-major patch extraction). -/
def crunchRow (data : List ℚ) (width px py row : ℕ) : List ℚ :=
  (List.range 8).map (fun j => lumAt data width (px * 8 + j) (py * 8 + row))

/-- Raw per-patch high-frequency energy: row-wise sum of squared
deviations from the row mean. -/
def crunchPatchHF (data : List ℚ) (width px py : ℕ) : ℚ :=
  ((List.range 8).map (fun row =>
    ((crunchRow data width px py row).map
      (fun v => (v - (crunchRow data width px py row).sum / 8) *
        (v - (crunchRow data width px py row).sum / 8))).sum)).sum

/-- Raw per-patch low-frequency energy: row-wise sum of squared row
means. -/
def crunchPatchLF (data : List ℚ) (width px py : ℕ) : ℚ :=
  ((List.range 8).map (fun row =>
    ((crunchRow data width px py row).sum / 8) *
      ((crunchRow data width px py row).sum / 8))).sum

/-- `computeCrunchScore(data, width, height)` from the source: per-patch
energies are normalized (`hf / 64`, `lf / 8`) before aggregation, and the
score is `min(100, round(ratio * 200))`. -/
def computeCrunchScore (data : List ℚ) (width height : ℕ) : ℤ :=
  let numPatchesX := width / 8
  let numPatchesY := height / 8
  if numPatchesX = 0 ∨ numPatchesY = 0 then 50
  else
    let highFreqEnergy := ((List.range numPatchesY).map (fun py =>
      ((List.range numPatchesX).map
        (fun px => crunchPatchHF data width px py / (8 * 8))).sum)).sum
    let lowFreqEnergy := ((List.range numPatchesY).map (fun py =>
      ((List.range numPatchesX).map
        (fun px => crunchPatchLF data width px py / 8)).sum)).sum
    let patchCount := numPatchesY * numPatchesX
    if patchCount = 0 then 50
    else
      let ratio := highFreqEnergy / (lowFreqEnergy + highFreqEnergy + 1 / 1000000)
      min 100 (round (ratio * 200))

/-- The crunch score exactly as claim C3 words it: the raw row energies
are aggregated across patches with no per-patch normalization. -/
def c3ClaimScore (data : List ℚ) (width height : ℕ) : ℤ :=
  let numPatchesX := width / 8
  let numPatchesY := height / 8
  let highFreq := ((List.range numPatchesY).map (fun py =>
    ((List.range numPatchesX).map (fun px => crunchPatchHF data width px py)).sum)).sum
  let lowFreq := ((List.range numPatchesY).map (fun py =>
    ((List.range numPatchesX).map (fun px => crunchPatchLF data width px py)).sum)).sum
  max 0 (min 100 (round (200 * highFreq / (highFreq + lowFreq + 1 / 1000000))))

/-- Claim C3 as stated: for images at least 8x8 the crunch score equals
the claim formula built from unnormalized patch energies. -/
def c3ClaimStatement : Prop :=
  ∀ (data : List ℚ) (width height : ℕ), 8 ≤ width → 8 ≤ height →
    computeCrunchScore data width height = c3ClaimScore data width height

/-- An 8x8 grayscale image whose every row alternates 96 and 104: each
patch row has mean 100, squared deviation sum 128. -/
def crunchCounterData : List ℚ :=
  (List.range 8).flatMap (fun _ =>
    [96, 96, 96, 255, 104, 104, 104, 255, 96, 96, 96, 255, 104, 104, 104, 255,
      96, 96, 96, 255, 104, 104, 104, 255, 96, 96, 96, 255, 104, 104, 104, 255])

set_option maxRecDepth 100000 in
unseal Rat.add Rat.mul Rat.inv Rat.sub Rat.ofScientific in
/-- Counterexample to claim C3 as stated: on `crunchCounterData` the
source (with its per-patch `hf/64`, `lf/8` normalization) returns 0 while
the claim formula returns 3. -/
theorem computeCrunchScore_claim_false : ¬c3ClaimStatement := by
  intro h
  have h2 := h crunchCounterData 8 8 (le_refl 8) (le_refl 8)
  have hcode : computeCrunchScore crunchCounterData 8 8 = 0 := by decide
  have hclaim : c3ClaimScore crunchCounterData 8 8 = 3 := by decide
  rw [hcode, hclaim] at h2
  exact absurd h2 (by decide)

theorem list_range_map_sum {M : Type*} [AddCommMonoid M] (f : ℕ → M) (n : ℕ) :
    ((List.range n).map f).sum = ∑ i in Finset.range n, f i := by
  induction n with
  | zero => simp
  | succ k ih =>
    rw [List.range_succ, List.map_append, List.sum_append, ih, Finset.sum_range_succ]
    simp

/-- Claim C3 (amended): for images at least 8x8, the crunch score is
`min(100, round(200*HF/(HF+LF+1e-6)))`, where the aggregated energies are
normalized per patch: each patch contributes its row-deviation energy
divided by 64 (the patch pixel count) to HF and its squared-row-mean
energy divided by 8 (the row count) to LF — the normalization the
original claim omits. -/
theorem computeCrunchScore_spec (data : List ℚ) (width height : ℕ)
    (hw : 8 ≤ width) (hh : 8 ≤ height) :
    computeCrunchScore data width height =
      min 100 (round (200 *
        (∑ p in Finset.range (height / 8) ×ˢ Finset.range (width / 8),
          crunchPatchHF data width p.2 p.1 / 64) /
        ((∑ p in Finset.range (height / 8) ×ˢ Finset.range (width / 8),
          crunchPatchHF data width p.2 p.1 / 64) +
          (∑ p in Finset.range (height / 8) ×ˢ Finset.range (width / 8),
            crunchPatchLF data width p.2 p.1 / 8) + 1 / 1000000))) := by
  have hx : width / 8 ≠ 0 := by
    have h1 : 1 ≤ width / 8 := (Nat.one_le_div_iff (by norm_num)).mpr hw
    omega
  have hy : height / 8 ≠ 0 := by
    have h1 : 1 ≤ height / 8 := (Nat.one_le_div_iff (by norm_num)).mpr hh
    omega
  have eHF : ((List.range (height / 8)).map (fun py =>
      ((List.range (width / 8)).map
        (fun px => crunchPatchHF data width px py / (8 * 8))).sum)).sum =
      ∑ p in Finset.range (height / 8) ×ˢ Finset.range (width / 8),
        crunchPatchHF data width p.2 p.1 / 64 := by
    rw [Finset.sum_product, list_range_map_sum]
    apply Finset.sum_congr rfl
    intro py _
    rw [list_range_map_sum]
    norm_num
  have eLF : ((List.range (height / 8)).map (fun py =>
      ((List.range (width / 8)).map
        (fun px => crunchPatchLF data width px py / 8)).sum)).sum =
      ∑ p in Finset.range (height / 8) ×ˢ Finset.range (width / 8),
        crunchPatchLF data width p.2 p.1 / 8 := by
    rw [Finset.sum_product, list_range_map_sum]
    apply Finset.sum_congr rfl
    intro py _
    rw [list_range_map_sum]
  simp only [computeCrunchScore]
  rw [if_neg (by push_neg; exact ⟨hx, hy⟩), if_neg (Nat.mul_ne_zero hy hx), eHF, eLF]
  set A := ∑ p in Finset.range (height / 8) ×ˢ Finset.range (width / 8),
    crunchPatchHF data width p.2 p.1 / 64 with hA
  set B := ∑ p in Finset.range (height / 8) ×ˢ Finset.range (width / 8),
    crunchPatchLF data width p.2 p.1 / 8 with hB
  congr 2
  ring

/-- Witness for the amended C3 at the concrete 8x8 image
`crunchCounterData`. -/
theorem computeCrunchScore_spec_witness :
    (8 ≤ 8) ∧
    computeCrunchScore crunchCounterData 8 8 =
      min 100 (round (200 *
        (∑ p in Finset.range (8 / 8) ×ˢ Finset.range (8 / 8),
          crunchPatchHF crunchCounterData 8 p.2 p.1 / 64) /
        ((∑ p in Finset.range (8 / 8) ×ˢ Finset.range (8 / 8),
          crunchPatchHF crunchCounterData 8 p.2 p.1 / 64) +
          (∑ p in Finset.range (8 / 8) ×ˢ Finset.range (8 / 8),
            crunchPatchLF crunchCounterData 8 p.2 p.1 / 8) + 1 / 1000000))) :=
  ⟨le_refl 8, computeCrunchScore_spec crunchCounterData 8 8 (le_refl 8) (le_refl 8)⟩

/-- Closed set of defect kinds (`DefectRegion.type` in the source). -/
inductive DefectType where
  | dark
  | burnt
  | light
  | mottled
  | sugar_end
  | disease
  | shadow
  deriving DecidableEq

/-- `DefectRegion` from the source.  The optional `areamm2` and
`stripCoverage` fields are always populated by `detectDefects`, so they
are modelled as plain rationals. -/
structure DefectRegion where
  x : ℚ
  y : ℚ
  width : ℚ
  height : ℚ
  type : DefectType
  severity : ℚ
  area : ℚ
  areamm2 : ℚ
  stripCoverage : ℚ
  positionWeight : ℚ
  isArtifact : Bool
  deriving DecidableEq

/-- Row-band key of `applyMottlingThirdRule`:
`Math.round(d.y / 30)`. -/
def stripKey (d : DefectRegion) : ℤ := round (d.y / 30)

/-- Row-band coverage of the band containing `d`, computed over all
defects (shadow regions included), as the source does. -/
def bandCoverage (defects : List DefectRegion) (imageWidth : ℚ) (d : DefectRegion) : ℚ :=
  ((defects.filter (fun e => stripKey e = stripKey d)).map DefectRegion.width).sum /
    imageWidth

/-- `applyMottlingThirdRule(defects, imageWidth)` from the source: stable
sort by `x` (JavaScript array sort is stable; modelled by the stable
`List.insertionSort`), group by `Math.round(y/30)` in first-appearance
order, set each defect's `stripCoverage` to its band's width fraction,
and drop mottled defects whose band coverage is below 0.333. -/
def applyMottlingThirdRule (defects : List DefectRegion) (imageWidth : ℚ) :
    List DefectRegion :=
  if defects.isEmpty then []
  else
    let sorted := defects.insertionSort (fun a b => a.x ≤ b.x)
    ((sorted.map stripKey).dedup).flatMap (fun k =>
      (sorted.filter (fun d => stripKey d = k)).filterMap (fun d =>
        if d.type = DefectType.mottled ∧
            ((sorted.filter (fun e => stripKey e = k)).map DefectRegion.width).sum /
              imageWidth < 0.333 then none
        else some { d with stripCoverage :=
          ((sorted.filter (fun e => stripKey e = k)).map DefectRegion.width).sum /
            imageWidth }))

/-- Membership characterization of `applyMottlingThirdRule`: exactly the
input defects that are not (mottled with band coverage below 0.333)
survive, each with its band coverage written to `stripCoverage`. -/
theorem mem_applyMottlingThirdRule (defects : List DefectRegion) (w : ℚ)
    (e : DefectRegion) :
    e ∈ applyMottlingThirdRule defects w ↔
      ∃ d ∈ defects, ¬(d.type = DefectType.mottled ∧ bandCoverage defects w d < 0.333) ∧
        e = { d with stripCoverage := bandCoverage defects w d } := by
  unfold applyMottlingThirdRule
  by_cases hemp : defects.isEmpty
  · rw [if_pos hemp]
    rw [List.isEmpty_iff.mp hemp]
    simp
  · rw [if_neg hemp]
    have hperm : (defects.insertionSort (fun a b => a.x ≤ b.x)).Perm defects :=
      List.perm_insertionSort _ _
    have hcov : ∀ k : ℤ,
        (((defects.insertionSort (fun a b => a.x ≤ b.x)).filter
          (fun e => stripKey e = k)).map DefectRegion.width).sum =
        ((defects.filter (fun e => stripKey e = k)).map DefectRegion.width).sum :=
      fun k => List.Perm.sum_eq (List.Perm.map _ (hperm.filter _))
    constructor
    · intro he
      rw [List.mem_flatMap] at he
      obtain ⟨k, _, he⟩ := he
      rw [List.mem_filterMap] at he
      obtain ⟨d, hd, hde⟩ := he
      rw [List.mem_filter] at hd
      obtain ⟨hdsorted, hdkey⟩ := hd
      have hdkey' : stripKey d = k := by simpa using hdkey
      have hdmem : d ∈ defects := hperm.mem_iff.mp hdsorted
      rw [hcov k, ← hdkey'] at hde
      refine ⟨d, hdmem, ?_, ?_⟩
      · intro hcond
        rw [if_pos (by exact hcond)] at hde
        exact Option.noConfusion hde
      · by_cases hcond :
          d.type = DefectType.mottled ∧ bandCoverage defects w d < 0.333
        · rw [if_pos (by exact hcond)] at hde
          exact Option.noConfusion hde
        · rw [if_neg (by exact hcond)] at hde
          exact (Option.some.injEq _ _ ▸ hde.symm)
    · rintro ⟨d, hdmem, hcond, rfl⟩
      rw [List.mem_flatMap]
      refine ⟨stripKey d, ?_, ?_⟩
      · rw [List.mem_dedup, List.mem_map]
        exact ⟨d, hperm.mem_iff.mpr hdmem, rfl⟩
      · rw [List.mem_filterMap]
        refine ⟨d, ?_, ?_⟩
        · rw [List.mem_filter]
          exact ⟨hperm.mem_iff.mpr hdmem, by simp⟩
        · rw [hcov (stripKey d)]
          rw [if_neg (by exact hcond)]
          rfl

/-- Claim C2 (amended): defects are grouped by row index
`Math.round(y/30)` computed over ALL defects (shadow regions included);
band coverage is the band's total defect width over the image width; a
mottled defect in a band with coverage below 0.333 is dropped, and every
surviving defect carries its band coverage in `stripCoverage`. -/
theorem applyMottlingThirdRule_spec (defects : List DefectRegion) (w : ℚ)
    (e : DefectRegion) :
    e ∈ applyMottlingThirdRule defects w ↔
      ∃ d ∈ defects, ¬(d.type = DefectType.mottled ∧ bandCoverage defects w d < 0.333) ∧
        e = { d with stripCoverage := bandCoverage defects w d } :=
  mem_applyMottlingThirdRule defects w e

/-- Row-band coverage exactly as claim C2 words it: bands keyed by
`floor(y/30)` over the non-shadow defects only. -/
def c2ClaimCoverage (defects : List DefectRegion) (w : ℚ) (d : DefectRegion) : ℚ :=
  ((defects.filter (fun e => ¬e.type = DefectType.shadow ∧ ⌊e.y / 30⌋ = ⌊d.y / 30⌋)).map
    DefectRegion.width).sum / w

/-- Claim C2 as stated: filtering keyed by `floor(y/30)` over non-shadow
defects, mottled defects dropped below coverage 1/3, all others kept with
that coverage recorded. -/
def c2ClaimStatement : Prop :=
  ∀ (defects : List DefectRegion) (w : ℚ) (e : DefectRegion),
    e ∈ applyMottlingThirdRule defects w ↔
      ∃ d ∈ defects, ¬(d.type = DefectType.mottled ∧ c2ClaimCoverage defects w d < 1/3) ∧
        e = { d with stripCoverage := c2ClaimCoverage defects w d }

/-- A mottled defect at y = 20 (claim band 0, source band 1). -/
def c2MottledDefect : DefectRegion :=
  ⟨0, 20, 20, 20, DefectType.mottled, 1/2, 400, 400, 0, 1, false⟩

/-- A shadow defect at y = 40 (claim: excluded from banding; source: in
band 1 together with the mottled defect). -/
def c2ShadowDefect : DefectRegion :=
  ⟨20, 40, 20, 20, DefectType.shadow, 3/5, 400, 400, 0, 1, true⟩

set_option maxRecDepth 10000 in
unseal Rat.add Rat.mul Rat.inv Rat.sub Rat.ofScientific in
/-- Counterexample to claim C2 as stated: with image width 100, the
source groups the mottled defect (y=20) and the shadow defect (y=40) into
the same `Math.round` band with coverage 0.4 and keeps the mottled
defect; under the claim's floor-grouping over non-shadow defects its
coverage would be 0.2 < 1/3 and it would have been removed. -/
theorem applyMottlingThirdRule_claim_false : ¬c2ClaimStatement := by
  intro h
  have h2 := (h [c2MottledDefect, c2ShadowDefect] 100
      { c2MottledDefect with stripCoverage := 2/5 }).mp (by decide)
  exact absurd h2 (by decide)

set_option maxRecDepth 10000 in
unseal Rat.add Rat.mul Rat.inv Rat.sub Rat.ofScientific in
/-- Witness for the amended C2: on the concrete two-defect band the
characterization yields the kept mottled defect with coverage 0.4. -/
theorem applyMottlingThirdRule_spec_witness :
    { c2MottledDefect with stripCoverage := 2/5 } ∈
      applyMottlingThirdRule [c2MottledDefect, c2ShadowDefect] 100 :=
  (applyMottlingThirdRule_spec [c2MottledDefect, c2ShadowDefect] 100
    { c2MottledDefect with stripCoverage := 2/5 }).mpr
    ⟨c2MottledDefect, by decide, by decide, by decide⟩

/-- HSV of the `i`-th pixel of a RGBA buffer. -/
def hsvAt (data : List ℚ) (i : ℕ) : HSVColor :=
  rgbToHsv (data.getD (i * 4) 0) (data.getD (i * 4 + 1) 0) (data.getD (i * 4 + 2) 0)

/-- Alpha channel of the `i`-th pixel of a RGBA buffer. -/
def alphaAt (data : List ℚ) (i : ℕ) : ℚ := data.getD (i * 4 + 3) 0

/-- `isShadowPixel(hsv, meanV, meanS)` from the source. -/
def isShadowPixel (hsv : HSVColor) (meanV meanS : ℚ) : Prop :=
  (meanV - hsv.v) / max 0.01 meanV > 0.35 ∧ hsv.s < meanS * 0.65 ∧
    ¬(hsv.h ≥ 15 ∧ hsv.h ≤ 55)

instance (hsv : HSVColor) (meanV meanS : ℚ) : Decidable (isShadowPixel hsv meanV meanS) := by
  unfold isShadowPixel
  infer_instance

/-- Pixels entering the global mean pre-pass of `detectDefects`
(alpha at least 128, saturation above 0.08, value above 0.1). -/
def ddGlobalQual (img : ImageData) : List ℕ :=
  (List.range (img.width * img.height)).filter (fun i =>
    128 ≤ alphaAt img.data i ∧ (hsvAt img.data i).s > 0.08 ∧ (hsvAt img.data i).v > 0.1)

/-- `globalMeanV` of `detectDefects` (0.6 fallback). -/
def ddGlobalMeanV (img : ImageData) : ℚ :=
  if (ddGlobalQual img).length > 0 then
    ((ddGlobalQual img).map (fun i => (hsvAt img.data i).v)).sum / (ddGlobalQual img).length
  else 0.6

/-- `globalMeanS` of `detectDefects` (0.4 fallback). -/
def ddGlobalMeanS (img : ImageData) : ℚ :=
  if (ddGlobalQual img).length > 0 then
    ((ddGlobalQual img).map (fun i => (hsvAt img.data i).s)).sum / (ddGlobalQual img).length
  else 0.4

/-- Per-cell aggregate data of the `detectDefects` grid. -/
structure CellData where
  h : ℚ
  s : ℚ
  v : ℚ
  isFry : Bool
  isShadow : Bool
  shadowRatio : ℚ
  deriving DecidableEq

/-- Grid geometry: `Math.ceil(width / 20)` columns. -/
def gridWn (img : ImageData) : ℕ := (img.width + 19) / 20

/-- Grid geometry: `Math.ceil(height / 20)` rows. -/
def gridHn (img : ImageData) : ℕ := (img.height + 19) / 20

/-- Linear pixel indices scanned by cell `(gy, gx)` of the 20px grid. -/
def cellPixelIdx (img : ImageData) (gy gx : ℕ) : List ℕ :=
  (rangeFromTo (gy * 20) (min ((gy + 1) * 20) img.height)).flatMap (fun py =>
    (rangeFromTo (gx * 20) (min ((gx + 1) * 20) img.width)).map (fun px =>
      py * img.width + px))

/-- Fry-content pixels of a cell (alpha at least 128, saturation above
0.08, value above 0.08). -/
def cellQualIdx (img : ImageData) (gy gx : ℕ) : List ℕ :=
  (cellPixelIdx img gy gx).filter (fun i =>
    128 ≤ alphaAt img.data i ∧ (hsvAt img.data i).s > 0.08 ∧ (hsvAt img.data i).v > 0.08)

/-- The cell record built by the grid pass of `detectDefects`. -/
def gridCell (img : ImageData) (gy gx : ℕ) : CellData :=
  let q := cellQualIdx img gy gx
  let cnt := q.length
  let shadowCount := (q.filter (fun i =>
    isShadowPixel (hsvAt img.data i) (ddGlobalMeanV img) (ddGlobalMeanS img))).length
  let shadowRatio := if cnt > 0 then (shadowCount : ℚ) / cnt else 0
  { h := if cnt > 0 then ((q.map (fun i => (hsvAt img.data i).h)).sum) / cnt else 0,
    s := if cnt > 0 then ((q.map (fun i => (hsvAt img.data i).s)).sum) / cnt else 0,
    v := if cnt > 0 then ((q.map (fun i => (hsvAt img.data i).v)).sum) / cnt else 0,
    isFry := decide (0 < cnt),
    isShadow := decide (shadowRatio > 0.5),
    shadowRatio := shadowRatio }

/-- Fry, non-shadow cells in scan order (used for the grid means). -/
def gridFryCells (img : ImageData) : List (ℕ × ℕ) :=
  ((List.range (gridHn img)).flatMap (fun gy =>
    (List.range (gridWn img)).map (fun gx => (gy, gx)))).filter
    (fun c => (gridCell img c.1 c.2).isFry && !(gridCell img c.1 c.2).isShadow)

/-- Grid mean hue over valid cells (30 fallback). -/
def ddMeanH (img : ImageData) : ℚ :=
  if (gridFryCells img).length > 0 then
    ((gridFryCells img).map (fun c => (gridCell img c.1 c.2).h)).sum /
      (gridFryCells img).length
  else 30

/-- Grid mean value over valid cells (0.7 fallback). -/
def ddMeanV (img : ImageData) : ℚ :=
  if (gridFryCells img).length > 0 then
    ((gridFryCells img).map (fun c => (gridCell img c.1 c.2).v)).sum /
      (gridFryCells img).length
  else 0.7

/-- Contour edge ratio of a cell (cells within the outer 10% margin get
position weight 1.5). -/
def edgeRatio (img : ImageData) (gy gx : ℕ) : ℚ :=
  min ((gx : ℚ) / gridWn img) (min (((gridWn img : ℚ) - gx) / gridWn img)
    (min ((gy : ℚ) / gridHn img) (((gridHn img : ℚ) - gy) / gridHn img)))

/-- The defect (if any) emitted for cell `(gy, gx)` by `detectDefects`:
shadow cells yield artifact regions; other fry cells run the burnt /
dark / light-or-sugar-end / mottled rule chain and emit when severity
exceeds 0.15. -/
def emitDefect (img : ImageData) (ppm : ℚ) (gy gx : ℕ) : Option DefectRegion :=
  let cell := gridCell img gy gx
  if ¬cell.isFry then none
  else if cell.isShadow then
    some
      { x := ((gx * 20 : ℕ) : ℚ), y := ((gy * 20 : ℕ) : ℚ),
        width := min 20 ((img.width : ℚ) - gx * 20),
        height := min 20 ((img.height : ℚ) - gy * 20),
        type := DefectType.shadow, severity := cell.shadowRatio,
        area := 20 * 20, areamm2 := if ppm > 0 then 20 * 20 / (ppm * ppm) else 20 * 20,
        stripCoverage := 0, positionWeight := 1, isArtifact := true }
  else
    let vDiff := ddMeanV img - cell.v
    let hDiff := |ddMeanH img - cell.h|
    let positionWeight : ℚ := if edgeRatio img gy gx < 0.1 then 1.5 else 1.0
    let w := min 20 ((img.width : ℚ) - gx * 20)
    let h := min 20 ((img.height : ℚ) - gy * 20)
    let cls : Option (DefectType × ℚ) :=
      if cell.v < 0.22 ∧ cell.s < 0.35 then some (DefectType.burnt, 1 - cell.v)
      else if vDiff > 0.28 ∧ cell.s > 0.18 then some (DefectType.dark, vDiff)
      else if cell.v > 0.87 ∧ cell.s < 0.22 then
        some (if positionWeight > 1.2 then DefectType.sugar_end else DefectType.light,
          (cell.v - 0.87) * 5)
      else if hDiff > 28 ∧ vDiff > 0.08 then some (DefectType.mottled, hDiff / 60)
      else none
    cls.bind (fun ts =>
      if ts.2 > 0.15 then
        some
          { x := ((gx * 20 : ℕ) : ℚ), y := ((gy * 20 : ℕ) : ℚ),
            width := w, height := h, type := ts.1,
            severity := min 1 (ts.2 * positionWeight),
            area := w * h, areamm2 := if ppm > 0 then w * h / (ppm * ppm) else w * h,
            stripCoverage := 0, positionWeight := positionWeight, isArtifact := false }
      else none)

/-- The defect list accumulated by the cell loop of `detectDefects`,
before the one-third rule. -/
def detectDefectsRaw (img : ImageData) (ppm : ℚ) : List DefectRegion :=
  (List.range (gridHn img)).flatMap (fun gy =>
    (List.range (gridWn img)).filterMap (fun gx => emitDefect img ppm gy gx))

/-- `detectDefects(imageData, ppm)` from the source. -/
def detectDefects (img : ImageData) (ppm : ℚ) : List DefectRegion :=
  applyMottlingThirdRule (detectDefectsRaw img ppm) img.width

/-- A defect emitted for a single cell is an artifact exactly when it is
a shadow region. -/
theorem emitDefect_artifact {img : ImageData} {ppm : ℚ} {gy gx : ℕ} {d : DefectRegion}
    (h : emitDefect img ppm gy gx = some d) :
    (d.type = DefectType.shadow ↔ d.isArtifact = true) := by
  simp only [emitDefect] at h
  by_cases h1 : ¬(gridCell img gy gx).isFry
  · rw [if_pos h1] at h
    exact absurd h (by simp)
  · rw [if_neg h1] at h
    by_cases h2 : (gridCell img gy gx).isShadow
    · rw [if_pos h2] at h
      injection h with h
      rw [← h]
      exact ⟨fun _ => rfl, fun _ => rfl⟩
    · rw [if_neg h2] at h
      rw [Option.bind_eq_some] at h
      obtain ⟨ts, hcls, hts⟩ := h
      have hty : d.isArtifact = false ∧ d.type = ts.1 := by
        split_ifs at hts <;>
          (injection hts with hts
           rw [← hts]
           exact ⟨rfl, rfl⟩)
      have hne : ts.1 ≠ DefectType.shadow := by
        split_ifs at hcls <;>
          (injection hcls with hcls
           rw [← hcls]
           simp)
      constructor
      · intro hsh
        rw [hty.2] at hsh
        exact absurd hsh hne
      · intro hart
        rw [hty.1] at hart
        exact absurd hart (by simp)

/-- Claim C6: every region returned by `detectDefects` is tagged shadow
exactly when its `isArtifact` flag is set. -/
theorem detectDefects_shadow_iff_isArtifact (img : ImageData) (ppm : ℚ) (e : DefectRegion)
    (he : e ∈ detectDefects img ppm) :
    (e.type = DefectType.shadow ↔ e.isArtifact = true) := by
  unfold detectDefects at he
  rw [mem_applyMottlingThirdRule] at he
  obtain ⟨d, hd, _, rfl⟩ := he
  show d.type = DefectType.shadow ↔ d.isArtifact = true
  unfold detectDefectsRaw at hd
  rw [List.mem_flatMap] at hd
  obtain ⟨gy, _, hd⟩ := hd
  rw [List.mem_filterMap] at hd
  obtain ⟨gx, _, hemit⟩ := hd
  exact emitDefect_artifact hemit

/-- A 1x1 image holding the single RGBA pixel (50, 40, 40, 255): its one
cell is classified burnt. -/
def c6Image : ImageData := ⟨[50, 40, 40, 255], 1, 1⟩

set_option maxRecDepth 10000 in
unseal Rat.add Rat.mul Rat.inv Rat.sub Rat.ofScientific in
/-- Witness for C6: the burnt defect returned for `c6Image` satisfies the
shadow-iff-artifact invariant. -/
theorem detectDefects_shadow_iff_isArtifact_witness :
    (⟨0, 0, 1, 1, DefectType.burnt, 1, 1, 1, 1, 1.5, false⟩ : DefectRegion) ∈
      detectDefects c6Image 1 ∧
    ((⟨0, 0, 1, 1, DefectType.burnt, 1, 1, 1, 1, 1.5, false⟩ : DefectRegion).type =
        DefectType.shadow ↔
      (⟨0, 0, 1, 1, DefectType.burnt, 1, 1, 1, 1, 1.5, false⟩ : DefectRegion).isArtifact =
        true) :=
  ⟨by decide, detectDefects_shadow_iff_isArtifact c6Image 1 _ (by decide)⟩

/-- `applyWhiteBalance(data, gains)` from the source: each RGB channel is
multiplied by its gain, rounded and clamped to 255; alpha entries are
untouched (the source loop strides 4 entries writing channels 0..2). -/
def applyWhiteBalance (data : List ℚ) (gains : ℚ × ℚ × ℚ) : List ℚ :=
  data.mapIdx (fun i v =>
    if i % 4 = 0 then min 255 ((round (v * gains.1) : ℤ) : ℚ)
    else if i % 4 = 1 then min 255 ((round (v * gains.2.1) : ℤ) : ℚ)
    else if i % 4 = 2 then min 255 ((round (v * gains.2.2) : ℤ) : ℚ)
    else v)

/-- The acrylamide risk levels of `computeMaillardRisk`. -/
inductive MaillardRisk where
  | Low
  | Moderate
  | High
  | Critical
  deriving DecidableEq

open Classical in
/-- `computeMaillardRisk(deltaE)` from the source. -/
noncomputable def computeMaillardRisk (deltaE : ℝ) : MaillardRisk × ℤ :=
  let index := min 100 (round (deltaE / 30 * 100))
  let risk : MaillardRisk :=
    if deltaE < 5 then MaillardRisk.Low
    else if deltaE < 15 then MaillardRisk.Moderate
    else if deltaE < 25 then MaillardRisk.High
    else MaillardRisk.Critical
  (risk, index)

/-- `estimateAgtron(meanR, meanG, meanB)` from the source. -/
def estimateAgtron (meanR meanG meanB : ℚ) : ℤ :=
  round (20 + lum601 meanR meanG meanB / 255 * 80)

/-- `getUsdaScore(agtron)` from the source. -/
def getUsdaScore (agtron : ℤ) : ℚ :=
  if 58 ≤ agtron ∧ agtron ≤ 68 then 0.5
  else if agtron < 40 then 0.0
  else if agtron < 50 then 0.2
  else if agtron < 58 then 0.4
  else if agtron < 70 then 0.6
  else if agtron < 80 then 0.8
  else 1.0

/-- `getProcessColorScore(usdaScore)` from the source (label strings kept
verbatim except that the apostrophe of the brand name is elided). -/
def getProcessColorScore (usdaScore : ℚ) : ℤ × String :=
  if |usdaScore - 0.5| < 0.05 then (5, "Equal to Target")
  else if usdaScore < 0.5 then
    if |usdaScore - 0.5| < 0.15 then (4, "Slightly Dark")
    else if |usdaScore - 0.5| < 0.25 then (3, "Moderately Dark")
    else if |usdaScore - 0.5| < 0.35 then (2, "Very Dark — Quality Failure")
    else (1, "Extremely Dark — Not McDonalds Quality")
  else
    if |usdaScore - 0.5| < 0.15 then (6, "Slightly Light")
    else if |usdaScore - 0.5| < 0.25 then (7, "Moderately Light")
    else if |usdaScore - 0.5| < 0.35 then (8, "Very Light — Quality Failure")
    else (9, "Extremely Light — Not McDonalds Quality")

/-- `getHueScore(meanH, meanS)` from the source. -/
def getHueScore (meanH meanS : ℚ) : ℤ × String :=
  if 25 ≤ meanH ∧ meanH ≤ 40 ∧ meanS > 0.3 ∧ meanS < 0.6 then
    (5, "Bright Light Golden (Target)")
  else if meanH > 40 ∧ meanH ≤ 55 then (6, "Creamy Yellow")
  else if meanH > 55 ∧ meanH ≤ 70 then (7, "Yellow Flesh")
  else if meanH > 70 ∨ meanS > 0.7 then (8, "Strong Yellow — Large Difference")
  else if meanH < 20 ∨ meanH > 80 then (9, "Bright Yellow / Off-Color")
  else if 20 ≤ meanH ∧ meanH < 25 then (4, "Slightly Under-colored")
  else (5, "Bright Light Golden (Target)")

/-- `getUsdaLabel(score)` from the source. -/
def getUsdaLabel (score : ℚ) : String :=
  if score ≤ 0.1 then "Very Dark (>1.5 USDA)"
  else if score ≤ 0.3 then "Dark (1.0–1.5 USDA)"
  else if score ≤ 0.45 then "Slightly Dark (0.5–1.0 USDA)"
  else if score ≤ 0.55 then "Target (0.5 USDA) ✓"
  else if score ≤ 0.7 then "Slightly Light (0.5–1.0 USDA)"
  else if score ≤ 0.9 then "Light (1.0–1.5 USDA)"
  else "Very Light (>1.5 USDA)"

/-- `generateHueHistogram(imageData)` from the source: 36 ten-degree
bins over qualifying pixels, normalized to percentages when any pixel
qualifies. -/
def generateHueHistogram (img : ImageData) : List ℚ :=
  let quals := (List.range (img.width * img.height)).filter (fun i =>
    128 ≤ alphaAt img.data i ∧ (hsvAt img.data i).s > 0.1 ∧ (hsvAt img.data i).v > 0.15)
  let bins := (List.range 36).map (fun b =>
    ((quals.filter (fun i => min 35 ⌊(hsvAt img.data i).h / 10⌋ = (b : ℤ))).length : ℚ))
  if quals.length > 0 then bins.map (fun c => c / quals.length * 100) else bins

/-- `generateHeatmap(imageData, gridSize)` from the source: per-cell mean
burn intensity over non-shadow pixels (the global mean pre-pass is the
same filter as in `detectDefects`, so `ddGlobalMeanV`/`ddGlobalMeanS` are
reused). -/
def generateHeatmap (img : ImageData) (gridSize : ℕ) : List (List ℚ) :=
  let meanV := ddGlobalMeanV img
  let meanS := ddGlobalMeanS img
  let gW := (img.width + gridSize - 1) / gridSize
  let gH := (img.height + gridSize - 1) / gridSize
  (List.range gH).map (fun gy => (List.range gW).map (fun gx =>
    let pts := (rangeFromTo (gy * gridSize) (min ((gy + 1) * gridSize) img.height)).flatMap
      (fun py => (rangeFromTo (gx * gridSize) (min ((gx + 1) * gridSize) img.width)).map
        (fun px => py * img.width + px))
    let q := pts.filter (fun i => 128 ≤ alphaAt img.data i ∧
      ¬isShadowPixel (hsvAt img.data i) meanV meanS ∧
      ((hsvAt img.data i).s > 0.05 ∨ (hsvAt img.data i).v < 0.5))
    if q.length > 0 then ((q.map (fun i => 1 - (hsvAt img.data i).v)).sum) / q.length
    else 0))

/-- The 5x5 neighbourhood offsets of the Grad-CAM splat, `dy` outer. -/
def gradCamOffsets : List (ℤ × ℤ) :=
  [-2, -1, 0, 1, 2].flatMap (fun dy => [-2, -1, 0, 1, 2].map (fun dx => ((dy : ℤ), (dx : ℤ))))

open Classical in
/-- One defect's splat onto the Grad-CAM grid (radius 2, linear falloff,
per-update cap at 1). -/
noncomputable def gradCamApply (gW gH gridSize : ℕ) (d : DefectRegion)
    (cam : ℤ → ℤ → ℝ) : ℤ → ℤ → ℝ :=
  let gx : ℤ := ⌊d.x / gridSize⌋
  let gy : ℤ := ⌊d.y / gridSize⌋
  gradCamOffsets.foldl (fun cam off =>
    let nx := gx + off.2
    let ny := gy + off.1
    if nx < 0 ∨ ny < 0 ∨ (gW : ℤ) ≤ nx ∨ (gH : ℤ) ≤ ny then cam
    else fun y x =>
      if y = ny ∧ x = nx then
        min 1 (cam ny nx + (d.severity : ℝ) *
          max 0 (1 - Real.sqrt ((off.2 : ℝ) ^ 2 + (off.1 : ℝ) ^ 2) / (2 + 1)) *
          (d.positionWeight : ℝ))
      else cam y x) cam

open Classical in
/-- `generateGradCam(imageData, defects, gridSize)` from the source:
non-artifact defects sequentially splat severity x weight x position
weight onto the grid. -/
noncomputable def generateGradCam (img : ImageData) (defects : List DefectRegion)
    (gridSize : ℕ) : List (List ℝ) :=
  let gW := (img.width + gridSize - 1) / gridSize
  let gH := (img.height + gridSize - 1) / gridSize
  let camFinal := (defects.filter (fun d => !d.isArtifact)).foldl
    (fun cam d => gradCamApply gW gH gridSize d cam) (fun _ _ => 0)
  (List.range gH).map (fun gy => (List.range gW).map (fun gx => camFinal gy gx))

/-- Pixel indices kept by the statistics pass of `analyzeImage`: alpha
at least 128, not near-white background, not shadow (relative to the
global means of the same pre-pass filter as `detectDefects`). -/
def statsKeepIdx (img : ImageData) : List ℕ :=
  (List.range (img.width * img.height)).filter (fun i =>
    128 ≤ alphaAt img.data i ∧
    ¬((hsvAt img.data i).s < 0.05 ∧ (hsvAt img.data i).v > 0.92) ∧
    ¬isShadowPixel (hsvAt img.data i) (ddGlobalMeanV img) (ddGlobalMeanS img))

/-- Pixel indices counted as shadow-suppressed by the statistics pass. -/
def statsShadowIdx (img : ImageData) : List ℕ :=
  (List.range (img.width * img.height)).filter (fun i =>
    128 ≤ alphaAt img.data i ∧
    ¬((hsvAt img.data i).s < 0.05 ∧ (hsvAt img.data i).v > 0.92) ∧
    isShadowPixel (hsvAt img.data i) (ddGlobalMeanV img) (ddGlobalMeanS img))

/-- `PixelStats` from the source. -/
structure PixelStats where
  meanR : ℚ
  meanG : ℚ
  meanB : ℚ
  meanH : ℚ
  meanS : ℚ
  meanV : ℚ
  medianHue : ℚ
  darkPixelRatio : ℚ
  burnedPixelRatio : ℚ
  lightPixelRatio : ℚ
  totalPixels : ℕ
  agtronScore : ℤ
  whiteBalanceGain : ℚ × ℚ × ℚ
  shadowMaskRatio : ℚ
  crunchScore : ℤ
  maillardRisk : MaillardRisk
  deltaE2000 : ℝ
  fuzzyConfidence : ℚ

/-- `AnalysisResult` from the source. -/
structure AnalysisResult where
  pixelStats : PixelStats
  usdaColorScore : ℚ
  usdaScoreLabel : String
  processColorScore : ℤ
  hueScore : ℤ
  mottlingScore : ℤ
  defectScore : ℤ
  overallAppearanceScore : ℤ
  defects : List DefectRegion
  pqi : ℤ
  defectCount : ℕ
  hueHistogram : List ℚ
  heatmapData : List (List ℚ)
  analysisTime : ℤ
  gradCamData : List (List ℝ)
  acrylamideIndex : ℤ

open Classical in
/-- `analyzeImage(imageData, ppm)` from the source.  The two `Date.now()`
reads (at entry and when assembling the result) are modelled by the
explicit clock parameters `tStart` and `tEnd`; everything else is a pure
function of the pixel buffer and `ppm`. -/
noncomputable def analyzeImage (img : ImageData) (ppm : ℚ) (tStart tEnd : ℤ) :
    AnalysisResult :=
  let wbGains := estimateWhiteBalance img.data img.width img.height
  let wbImg : ImageData := ⟨applyWhiteBalance img.data wbGains, img.width, img.height⟩
  let crunchScore := computeCrunchScore img.data img.width img.height
  let keep := statsKeepIdx wbImg
  let shadowPx := (statsShadowIdx wbImg).length
  let validPx := if keep.length = 0 then 1 else keep.length
  let meanR := (keep.map (fun i => wbImg.data.getD (i * 4) 0)).sum / validPx
  let meanG := (keep.map (fun i => wbImg.data.getD (i * 4 + 1) 0)).sum / validPx
  let meanB := (keep.map (fun i => wbImg.data.getD (i * 4 + 2) 0)).sum / validPx
  let meanH := (keep.map (fun i => (hsvAt wbImg.data i).h)).sum / validPx
  let meanS := (keep.map (fun i => (hsvAt wbImg.data i).s)).sum / validPx
  let meanV := (keep.map (fun i => (hsvAt wbImg.data i).v)).sum / validPx
  let hueValues := (keep.filter (fun i => (hsvAt wbImg.data i).s > 0.1)).map
    (fun i => (hsvAt wbImg.data i).h)
  let medianHue := if hueValues.length > 0 then
      (hueValues.insertionSort (fun a b => a ≤ b)).getD (hueValues.length / 2) 0
    else 30
  let burnedPx := (keep.filter (fun i =>
    (hsvAt wbImg.data i).v < 0.2 ∧ (hsvAt wbImg.data i).s < 0.3)).length
  let darkPx := (keep.filter (fun i =>
    ¬((hsvAt wbImg.data i).v < 0.2 ∧ (hsvAt wbImg.data i).s < 0.3) ∧
    (hsvAt wbImg.data i).v < 0.35)).length
  let lightPx := (keep.filter (fun i =>
    ¬((hsvAt wbImg.data i).v < 0.2 ∧ (hsvAt wbImg.data i).s < 0.3) ∧
    ¬((hsvAt wbImg.data i).v < 0.35) ∧
    (hsvAt wbImg.data i).v > 0.85 ∧ (hsvAt wbImg.data i).s < 0.2)).length
  let dE := deltaE2000 (rgbToLab (meanR : ℝ) (meanG : ℝ) (meanB : ℝ)) MC_GOLD_LAB
  let maillard := computeMaillardRisk dE
  let agtronScore := estimateAgtron meanR meanG meanB
  let usdaColorScore := getUsdaScore agtronScore
  let processColorScore := (getProcessColorScore usdaColorScore).1
  let hueScore := (getHueScore meanH meanS).1
  let allDefects := detectDefects wbImg ppm
  let realDefects := allDefects.filter (fun d => !d.isArtifact)
  let burnedRatio := (burnedPx : ℚ) / validPx
  let mottledDefects := realDefects.filter (fun d =>
    d.type = DefectType.mottled ∨ d.type = DefectType.dark)
  let mottlingScore : ℤ :=
    if mottledDefects.length ≥ 20 then 9
    else if mottledDefects.length ≥ 15 then 8
    else if mottledDefects.length ≥ 10 then 7
    else if mottledDefects.length ≥ 5 then 6
    else 5
  let weightedDefectSeverity := (realDefects.map (fun d => d.severity * d.positionWeight)).sum
  let defectScore : ℤ :=
    if burnedRatio > (0.3 : ℚ) ∨ weightedDefectSeverity > (15 : ℚ) then 9
    else if burnedRatio > (0.2 : ℚ) ∨ weightedDefectSeverity > (10 : ℚ) then 8
    else if burnedRatio > (0.1 : ℚ) ∨ weightedDefectSeverity > (6 : ℚ) then 7
    else if burnedRatio > (0.05 : ℚ) ∨ weightedDefectSeverity > (3 : ℚ) then 6
    else 5
  let scores : List ℤ := [processColorScore, hueScore, mottlingScore, defectScore]
  { pixelStats :=
      { meanR := meanR, meanG := meanG, meanB := meanB,
        meanH := meanH, meanS := meanS, meanV := meanV,
        medianHue := medianHue,
        darkPixelRatio := (darkPx : ℚ) / validPx,
        burnedPixelRatio := burnedRatio,
        lightPixelRatio := (lightPx : ℚ) / validPx,
        totalPixels := validPx,
        agtronScore := agtronScore,
        whiteBalanceGain := wbGains,
        shadowMaskRatio := (shadowPx : ℚ) / (validPx + shadowPx + 1),
        crunchScore := crunchScore,
        maillardRisk := maillard.1,
        deltaE2000 := dE,
        fuzzyConfidence := ((scores.filter (fun s => s = 5)).length : ℚ) / scores.length },
    usdaColorScore := usdaColorScore,
    usdaScoreLabel := getUsdaLabel usdaColorScore,
    processColorScore := processColorScore,
    hueScore := hueScore,
    mottlingScore := mottlingScore,
    defectScore := defectScore,
    overallAppearanceScore := max processColorScore (max hueScore (max mottlingScore defectScore)),
    defects := allDefects,
    pqi := fuzzyPQI (scores.map (fun s => (s : ℝ))),
    defectCount := realDefects.length,
    hueHistogram := generateHueHistogram wbImg,
    heatmapData := generateHeatmap wbImg 20,
    analysisTime := tEnd - tStart,
    gradCamData := generateGradCam wbImg allDefects 20,
    acrylamideIndex := maillard.2 }

/-- Claim C10: `defectCount` equals the number of non-artifact regions in
the returned `defects` list, and is therefore at most its length. -/
theorem analyzeImage_defectCount (img : ImageData) (ppm : ℚ) (t1 t2 : ℤ) :
    (analyzeImage img ppm t1 t2).defectCount =
      ((analyzeImage img ppm t1 t2).defects.filter (fun d => !d.isArtifact)).length ∧
    (analyzeImage img ppm t1 t2).defectCount ≤
      (analyzeImage img ppm t1 t2).defects.length := by
  constructor
  · rfl
  · exact List.length_filter_le _ _

/-- Claim C9: when the statistics pass keeps no pixel, the pixel-count
denominator is substituted with 1 (reported as `totalPixels`), the median
hue falls back to 30, and the dark/burned/light ratios are all 0. -/
theorem analyzeImage_degenerate (img : ImageData) (ppm : ℚ) (t1 t2 : ℤ)
    (h : statsKeepIdx
      ⟨applyWhiteBalance img.data (estimateWhiteBalance img.data img.width img.height),
        img.width, img.height⟩ = []) :
    (analyzeImage img ppm t1 t2).pixelStats.totalPixels = 1 ∧
    (analyzeImage img ppm t1 t2).pixelStats.medianHue = 30 ∧
    (analyzeImage img ppm t1 t2).pixelStats.darkPixelRatio = 0 ∧
    (analyzeImage img ppm t1 t2).pixelStats.burnedPixelRatio = 0 ∧
    (analyzeImage img ppm t1 t2).pixelStats.lightPixelRatio = 0 := by
  simp only [analyzeImage, h]
  norm_num

/-- The empty pixel buffer. -/
def emptyImage : ImageData := ⟨[], 0, 0⟩

/-- Witness for C9 at the zero-sized image: no pixel qualifies, yet the
result carries the documented fallbacks. -/
theorem analyzeImage_degenerate_witness :
    (statsKeepIdx
      ⟨applyWhiteBalance emptyImage.data
        (estimateWhiteBalance emptyImage.data emptyImage.width emptyImage.height),
        emptyImage.width, emptyImage.height⟩ = []) ∧
    ((analyzeImage emptyImage 1 0 0).pixelStats.totalPixels = 1 ∧
      (analyzeImage emptyImage 1 0 0).pixelStats.medianHue = 30 ∧
      (analyzeImage emptyImage 1 0 0).pixelStats.darkPixelRatio = 0 ∧
      (analyzeImage emptyImage 1 0 0).pixelStats.burnedPixelRatio = 0 ∧
      (analyzeImage emptyImage 1 0 0).pixelStats.lightPixelRatio = 0) :=
  ⟨rfl, analyzeImage_degenerate emptyImage 1 0 0 rfl⟩

/-- Claim C4 as stated: the full analysis result — `analysisTime`
included — is a function of the pixel buffer and `ppm` alone, regardless
of the wall-clock readings of the two runs. -/
def c4ClaimStatement : Prop :=
  ∀ (img : ImageData) (ppm : ℚ) (t1 t2 t1' t2' : ℤ),
    analyzeImage img ppm t1 t2 = analyzeImage img ppm t1' t2'

/-- Counterexample to claim C4 as stated: two runs on the same (empty)
buffer whose wall clocks measure 1ms and 2ms differ in `analysisTime`. -/
theorem analyzeImage_claim_false : ¬c4ClaimStatement := by
  intro h
  have h2 := h emptyImage 1 0 1 0 2
  have h3 := congrArg AnalysisResult.analysisTime h2
  have e1 : (analyzeImage emptyImage 1 0 1).analysisTime = 1 := rfl
  have e2 : (analyzeImage emptyImage 1 0 2).analysisTime = 2 := rfl
  rw [e1, e2] at h3
  exact absurd h3 (by decide)

/-- Claim C4 (amended): every field of the analysis result except
`analysisTime` is independent of the clock readings, so two runs on the
same buffer and ppm agree everywhere but in `analysisTime`, which records
the wall-clock duration of each run. -/
theorem analyzeImage_time_independent (img : ImageData) (ppm : ℚ) (t1 t2 t1' t2' : ℤ) :
    (analyzeImage img ppm t1 t2).pixelStats = (analyzeImage img ppm t1' t2').pixelStats ∧
    (analyzeImage img ppm t1 t2).usdaColorScore =
      (analyzeImage img ppm t1' t2').usdaColorScore ∧
    (analyzeImage img ppm t1 t2).usdaScoreLabel =
      (analyzeImage img ppm t1' t2').usdaScoreLabel ∧
    (analyzeImage img ppm t1 t2).processColorScore =
      (analyzeImage img ppm t1' t2').processColorScore ∧
    (analyzeImage img ppm t1 t2).hueScore = (analyzeImage img ppm t1' t2').hueScore ∧
    (analyzeImage img ppm t1 t2).mottlingScore =
      (analyzeImage img ppm t1' t2').mottlingScore ∧
    (analyzeImage img ppm t1 t2).defectScore =
      (analyzeImage img ppm t1' t2').defectScore ∧
    (analyzeImage img ppm t1 t2).overallAppearanceScore =
      (analyzeImage img ppm t1' t2').overallAppearanceScore ∧
    (analyzeImage img ppm t1 t2).defects = (analyzeImage img ppm t1' t2').defects ∧
    (analyzeImage img ppm t1 t2).pqi = (analyzeImage img ppm t1' t2').pqi ∧
    (analyzeImage img ppm t1 t2).defectCount =
      (analyzeImage img ppm t1' t2').defectCount ∧
    (analyzeImage img ppm t1 t2).hueHistogram =
      (analyzeImage img ppm t1' t2').hueHistogram ∧
    (analyzeImage img ppm t1 t2).heatmapData =
      (analyzeImage img ppm t1' t2').heatmapData ∧
    (analyzeImage img ppm t1 t2).gradCamData =
      (analyzeImage img ppm t1' t2').gradCamData ∧
    (analyzeImage img ppm t1 t2).acrylamideIndex =
      (analyzeImage img ppm t1' t2').acrylamideIndex :=
  ⟨rfl, rfl, rfl, rfl, rfl, rfl, rfl, rfl, rfl, rfl, rfl, rfl, rfl, rfl, rfl⟩
